import Mathlib

/-!
Verification development for the MBSS test-orchestrator backend.

The definitions below are a shallow embedding of the TypeScript backend
(`portal/backend/src`): JSON objects become association lists with
JavaScript `Object.assign` semantics, SQLite tables become lists of row
structures, SQL `UPDATE ... WHERE` statements become list maps guarded by
the `WHERE` predicate, and ISO-8601 timestamp strings (which the code only
ever compares lexicographically) become naturals.
-/

namespace MBSS

/-- JSON-like values (the payload type of config maps, `meta` blobs, etc.). -/
inductive JValue where
  | s : String → JValue
  | n : Int → JValue
  | b : Bool → JValue
  | null : JValue
  | obj : List (String × JValue) → JValue
  | arr : List JValue → JValue
deriving Repr, BEq

/-- A JavaScript object: an association list with (in well-formed objects)
unique keys, in insertion order. -/
abbrev ObjMap := List (String × JValue)

/-- Property write, as JavaScript `target[k] = v`: replace the value at an
existing key in place, otherwise append the new key at the end. -/
def setKey (m : ObjMap) (k : String) (v : JValue) : ObjMap :=
  if m.any (fun p => p.1 == k) then
    m.map (fun p => if p.1 == k then (k, v) else p)
  else
    m ++ [(k, v)]

/-- JavaScript `Object.assign(target, src)`: write every property of `src`
into `target`, in order. Object spread `\x7b...target, ...src\x7d` has the
same semantics. -/
def assign (target src : ObjMap) : ObjMap :=
  src.foldl (fun t p => setKey t p.1 p.2) target

/-- Property read, as JavaScript `m[k]` on a well-formed object. -/
def getKey (m : ObjMap) (k : String) : Option JValue :=
  (m.find? (fun p => p.1 == k)).map (·.2)

/-- Well-formedness of a JavaScript object: no duplicate keys. -/
def KeysNodup (m : ObjMap) : Prop := (m.map Prod.fst).Nodup

instance (m : ObjMap) : Decidable (KeysNodup m) :=
  inferInstanceAs (Decidable (m.map Prod.fst).Nodup)

instance (l : List ObjMap) : Decidable (∀ src ∈ l, KeysNodup src) :=
  List.decidableBAll KeysNodup l

-- ============================================================================
-- Data model rows (types/index.ts, db/migrations.ts)
-- ============================================================================

/-- Run status (`runs.status`). -/
inductive RunStatus where
  | queued | running | passed | failed | skipped | cancelled
deriving Repr, DecidableEq

/-- Per-test status within a run (`run_tests.status`). -/
inductive RunTestStatus where
  | pending | running | passed | failed | skipped
deriving Repr, DecidableEq

/-- Run summary JSON blob (`runs.summary`). -/
structure RunSummary where
  totalTests : Nat
  passed : Nat
  failed : Nat
  skipped : Nat
  durationMs : Nat
deriving Repr, DecidableEq

/-- Shared / per-environment constant maps (`constants` and `overrides`
columns of `test_definitions`). -/
structure TestConstants where
  shared : Option ObjMap := none
  environments : Option (List (String × ObjMap)) := none
deriving Repr

/-- The `meta.json` payload of a test. -/
structure TestMeta where
  testKey : String
  friendlyName : String
  description : Option String := none
  tags : List String := []
deriving Repr

/-- A `test_definitions` row. -/
structure TestDefinition where
  id : String
  testKey : String
  folderPath : String
  specPath : String
  meta : TestMeta
  constants : TestConstants
  overrides : Option TestConstants := none
  active : Bool := true
  createdAt : Nat := 0
  updatedAt : Nat := 0
deriving Repr

/-- A `runs` row. Timestamps are naturals standing for ISO strings, which
the code only compares lexicographically. -/
structure Run where
  id : String
  status : RunStatus
  triggerType : String := "manual"
  environment : String
  scheduleId : Option String := none
  triggeredByEmail : Option String := none
  runOverrides : Option ObjMap := none
  startedAt : Option Nat := none
  finishedAt : Option Nat := none
  summary : Option RunSummary := none
  createdAt : Nat := 0
deriving Repr

/-- Per-test artifact filenames (`run_tests.artifacts`). -/
structure TestArtifacts where
  consoleLog : Option String := none
  video : Option String := none
deriving Repr, DecidableEq

/-- A `run_tests` row. -/
structure RunTest where
  id : String
  runId : String
  testId : String
  testKey : String
  status : RunTestStatus
  durationMs : Option Nat := none
  errorMessage : Option String := none
  artifacts : Option TestArtifacts := none
  startedAt : Option Nat := none
  finishedAt : Option Nat := none
deriving Repr

-- ============================================================================
-- C1: effective configuration (core/executor/index.ts, buildEffectiveConfig)
-- ============================================================================

/-- Lookup of a per-environment map (`environments?.[env]`). -/
def envLookup (es : List (String × ObjMap)) (env : String) : Option ObjMap :=
  (es.find? (fun p => p.1 == env)).map (·.2)

/-- `buildEffectiveConfig(testDef, run)` from core/executor/index.ts:
starts from `\x7b envCode: env, ...(testDef.constants.shared || \x7b\x7d) \x7d`
and `Object.assign`s, in order, the environment constants, the shared and
per-environment overrides (when an `overrides` blob exists), and the
run-level overrides. -/
def buildEffectiveConfig (testDef : TestDefinition) (run : Run) : ObjMap :=
  let env := run.environment
  let config : ObjMap := assign [("envCode", JValue.s env)] (testDef.constants.shared.getD [])
  let config :=
    match testDef.constants.environments.bind (envLookup · env) with
    | some m => assign config m
    | none => config
  let config :=
    match testDef.overrides with
    | none => config
    | some ov =>
      let config :=
        match ov.shared with
        | some m => assign config m
        | none => config
      match ov.environments.bind (envLookup · env) with
      | some m => assign config m
      | none => config
  match run.runOverrides with
  | some m => assign config m
  | none => config

/-- The six configuration sources named by the spec, in merge order; an
absent source contributes the empty object. -/
def specConfigSources (testDef : TestDefinition) (run : Run) : List ObjMap :=
  [ [("envCode", JValue.s run.environment)],
    testDef.constants.shared.getD [],
    (testDef.constants.environments.bind (envLookup · run.environment)).getD [],
    (testDef.overrides.bind (·.shared)).getD [],
    ((testDef.overrides.bind (·.environments)).bind (envLookup · run.environment)).getD [],
    run.runOverrides.getD [] ]

/-- Modelled from the spec's words: the effective configuration as the
left-to-right top-level merge (later wins) of the six sources. -/
def specEffectiveConfig (testDef : TestDefinition) (run : Run) : ObjMap :=
  (specConfigSources testDef run).foldl assign []

theorem assign_nil (m : ObjMap) : assign m [] = m := rfl

theorem getKey_append (m m' : ObjMap) (k : String) :
    getKey (m ++ m') k = (getKey m k).or (getKey m' k) := by
  unfold getKey
  rw [List.find?_append]
  cases m.find? (fun p => p.1 == k) <;> simp

theorem getKey_eq_none_of_not_mem (m : ObjMap) (k : String)
    (h : k ∉ m.map Prod.fst) : getKey m k = none := by
  unfold getKey
  rw [List.find?_eq_none.mpr]
  · rfl
  · intro p hp
    simp only [Bool.not_eq_true, beq_eq_false_iff_ne, ne_eq]
    intro hpk
    exact h (List.mem_map.mpr ⟨p, hp, hpk⟩)

theorem getKey_map_replace (m : ObjMap) (k' k : String) (v : JValue) :
    getKey (m.map (fun p => if p.1 == k' then (k', v) else p)) k =
      if k = k' then (if m.any (fun p => p.1 == k') then some v else none)
      else getKey m k := by
  induction m with
  | nil => by_cases hk : k = k' <;> simp [getKey, hk]
  | cons hd tl ih =>
    by_cases hhd : (hd.1 == k') = true
    · have hd1 : hd.1 = k' := by simpa using hhd
      by_cases hk : k = k'
      · subst hk
        simp only [List.map_cons, if_pos hhd, List.any_cons, hhd, Bool.true_or, if_pos]
        unfold getKey
        rw [List.find?_cons_of_pos _ (by simp)]
        rfl
      · have h1 : ¬ (((k', v).1 == k) = true) := by simpa using fun h => hk h.symm
        have h2 : ¬ ((hd.1 == k) = true) := by
          simp only [beq_iff_eq, hd1]
          exact fun h => hk h.symm
        simp only [List.map_cons, if_pos hhd]
        unfold getKey
        rw [List.find?_cons_of_neg _ (by exact h1), List.find?_cons_of_neg _ (by exact h2)]
        have := ih
        unfold getKey at this
        rw [this, if_neg hk, if_neg hk]
    · have hhd' : (hd.1 == k') = false := by simpa using hhd
      by_cases hk : k = k'
      · subst hk
        simp only [List.map_cons, hhd', if_false, List.any_cons, Bool.false_or]
        unfold getKey
        rw [List.find?_cons_of_neg _ (by simp [hhd'])]
        have := ih
        unfold getKey at this
        rw [this]
        simp
      · by_cases hhdk : (hd.1 == k) = true
        · simp only [List.map_cons, hhd', if_false]
          unfold getKey
          rw [List.find?_cons_of_pos _ (by exact hhdk), List.find?_cons_of_pos _ (by exact hhdk)]
          simp [hk]
        · simp only [List.map_cons, hhd', if_false]
          unfold getKey
          rw [List.find?_cons_of_neg _ (by exact hhdk), List.find?_cons_of_neg _ (by exact hhdk)]
          have := ih
          unfold getKey at this
          rw [this, if_neg hk, if_neg hk]

theorem getKey_setKey (m : ObjMap) (k' k : String) (v : JValue) :
    getKey (setKey m k' v) k = if k = k' then some v else getKey m k := by
  unfold setKey
  by_cases hmem : m.any (fun p => p.1 == k') = true
  · rw [if_pos hmem, getKey_map_replace, hmem]
    by_cases hk : k = k' <;> simp [hk]
  · rw [if_neg hmem, getKey_append]
    by_cases hk : k = k'
    · subst hk
      have : getKey m k = none := by
        apply getKey_eq_none_of_not_mem
        intro hcon
        rcases List.mem_map.mp hcon with ⟨p, hp, hpk⟩
        exact hmem (List.any_eq_true.mpr ⟨p, hp, by simp [hpk]⟩)
      rw [this, if_pos rfl]
      simp [getKey]
    · rw [if_neg hk]
      have : getKey [(k', v)] k = none := by
        simp [getKey, List.find?_cons_of_neg, show ¬ ((k' == k) = true) from by
          simpa using fun h => hk h.symm]
      rw [this]
      cases getKey m k <;> simp

theorem getKey_assign (m src : ObjMap) (k : String) (h : KeysNodup src) :
    getKey (assign m src) k = (getKey src k).or (getKey m k) := by
  induction src generalizing m with
  | nil => simp [assign, getKey]
  | cons hd tl ih =>
    have hnd : KeysNodup tl := by
      unfold KeysNodup at h ⊢
      simpa using (List.nodup_cons.mp (by simpa using h)).2
    have hstep : assign m (hd :: tl) = assign (setKey m hd.1 hd.2) tl := rfl
    rw [hstep, ih _ hnd]
    by_cases hk : k = hd.1
    · have hnotin : hd.1 ∉ tl.map Prod.fst := by
        unfold KeysNodup at h
        exact (List.nodup_cons.mp (by simpa using h)).1
      have h1 : getKey tl k = none :=
        getKey_eq_none_of_not_mem _ _ (by rw [hk]; exact hnotin)
      have h2 : getKey (hd :: tl) k = some hd.2 := by
        unfold getKey
        rw [List.find?_cons_of_pos _ (by simp [hk])]
        rfl
      rw [h1, h2, getKey_setKey, if_pos hk]
      simp
    · rw [getKey_setKey, if_neg hk]
      have h2 : getKey (hd :: tl) k = getKey tl k := by
        unfold getKey
        rw [List.find?_cons_of_neg _ (by simpa using fun h' => hk h'.symm)]
      rw [h2]

/-- C1: for every test definition and run, the effective configuration built
by the executor equals the left-to-right top-level merge of
`\x7b envCode \x7d`, shared constants, per-environment constants, shared
overrides, per-environment overrides and run overrides (later sources fully
replace matching keys; an absent source contributes nothing): the built map
is the spec's ordered fold, and a key's value comes from the last source
that defines it. -/
theorem buildEffectiveConfig_is_ordered_merge (testDef : TestDefinition) (run : Run)
    (h : ∀ src ∈ specConfigSources testDef run, KeysNodup src) :
    buildEffectiveConfig testDef run = specEffectiveConfig testDef run ∧
    ∀ k, getKey (buildEffectiveConfig testDef run) k =
      ((getKey (run.runOverrides.getD []) k).or
        ((getKey (((testDef.overrides.bind (·.environments)).bind
            (envLookup · run.environment)).getD []) k).or
          ((getKey ((testDef.overrides.bind (·.shared)).getD []) k).or
            ((getKey ((testDef.constants.environments.bind
                (envLookup · run.environment)).getD []) k).or
              ((getKey (testDef.constants.shared.getD []) k).or
                (getKey [("envCode", JValue.s run.environment)] k)))))) := by
  have heq : buildEffectiveConfig testDef run = specEffectiveConfig testDef run := by
    have hb : assign ([] : ObjMap) [("envCode", JValue.s run.environment)] =
        [("envCode", JValue.s run.environment)] := rfl
    unfold buildEffectiveConfig specEffectiveConfig specConfigSources
    simp only [List.foldl_cons, List.foldl_nil, hb]
    cases h1 : testDef.constants.environments.bind (envLookup · run.environment) <;>
    cases h2 : testDef.overrides with
    | none => cases h5 : run.runOverrides <;> simp [assign_nil]
    | some ov =>
      cases h3 : ov.shared <;>
      cases h4 : ov.environments.bind (envLookup · run.environment) <;>
      cases h5 : run.runOverrides <;>
      simp [assign_nil, h3, h4]
  refine ⟨heq, fun k => ?_⟩
  rw [heq]
  unfold specEffectiveConfig specConfigSources
  simp only [List.foldl_cons, List.foldl_nil]
  rw [getKey_assign _ _ _ (h _ (by simp [specConfigSources]))]
  rw [getKey_assign _ _ _ (h _ (by simp [specConfigSources]))]
  rw [getKey_assign _ _ _ (h _ (by simp [specConfigSources]))]
  rw [getKey_assign _ _ _ (h _ (by simp [specConfigSources]))]
  rw [getKey_assign _ _ _ (h _ (by simp [specConfigSources]))]
  have hbase : assign ([] : ObjMap) [("envCode", JValue.s run.environment)] =
      [("envCode", JValue.s run.environment)] := rfl
  rw [hbase]

/-- A concrete catalog entry used to exercise the merge precedence. -/
def sampleTestDef : TestDefinition :=
  { id := "t-1"
    testKey := "auth.basic-login"
    folderPath := "auth/basic-login"
    specPath := "auth/basic-login/basic-login.spec.js"
    meta := { testKey := "auth.basic-login", friendlyName := "Basic login" }
    constants :=
      { shared := some [("user", JValue.s "shared-user"), ("retries", JValue.n 1)]
        environments := some [("SIT1", [("user", JValue.s "sit1-user"), ("base", JValue.s "sit1.example")])] }
    overrides :=
      some { shared := some [("retries", JValue.n 2)]
             environments := some [("SIT1", [("user", JValue.s "override-user")])] } }

/-- A concrete run against SIT1 with a run-level override. -/
def sampleRun : Run :=
  { id := "r-1"
    status := RunStatus.queued
    environment := "SIT1"
    runOverrides := some [("user", JValue.s "run-user")] }

theorem buildEffectiveConfig_is_ordered_merge_witness :
    buildEffectiveConfig sampleTestDef sampleRun = specEffectiveConfig sampleTestDef sampleRun ∧
    getKey (buildEffectiveConfig sampleTestDef sampleRun) "user" = some (JValue.s "run-user") ∧
    getKey (buildEffectiveConfig sampleTestDef sampleRun) "retries" = some (JValue.n 2) ∧
    getKey (buildEffectiveConfig sampleTestDef sampleRun) "base" = some (JValue.s "sit1.example") ∧
    getKey (buildEffectiveConfig sampleTestDef sampleRun) "envCode" = some (JValue.s "SIT1") := by
  have h := buildEffectiveConfig_is_ordered_merge sampleTestDef sampleRun (by decide)
  refine ⟨h.1, ?_, ?_, ?_, ?_⟩
  · rw [h.2 "user"]; rfl
  · rw [h.2 "retries"]; rfl
  · rw [h.2 "base"]; rfl
  · rw [h.2 "envCode"]; rfl

-- ============================================================================
-- C3: executor final run status (core/executor/index.ts, executeRun)
-- ============================================================================

/-- Outcome of `executeTest` for one run_test row: the definition was
missing (row marked skipped), the driver reported success (passed), or the
driver failed / an error was thrown (failed). -/
inductive TestOutcome where
  | defMissing
  | testPassed
  | testFailed
deriving Repr, DecidableEq

/-- One step of the executor loop's summary bookkeeping: `executeTest`
increments exactly one of `skipped`, `passed`, `failed`. -/
def applyOutcome (s : RunSummary) (o : TestOutcome) : RunSummary :=
  match o with
  | TestOutcome.defMissing => { s with skipped := s.skipped + 1 }
  | TestOutcome.testPassed => { s with passed := s.passed + 1 }
  | TestOutcome.testFailed => { s with failed := s.failed + 1 }

/-- The summary produced by `executeRun`'s loop: `totalTests` is fixed at
dispatch to the number of attached run_tests, the counters accumulate the
outcomes of the tests actually executed (the loop may break early on
cancellation), and `durationMs` is stamped at the end. -/
def runLoopSummary (totalTests : Nat) (outcomes : List TestOutcome) (durationMs : Nat) :
    RunSummary :=
  outcomes.foldl applyOutcome
    { totalTests := totalTests, passed := 0, failed := 0, skipped := 0, durationMs := durationMs }

/-- The `finalStatus` ternary chain of `executeRun`: `failed` when any test
failed, otherwise `passed` whether or not every test passed. -/
def finalRunStatus (s : RunSummary) : RunStatus :=
  if s.failed > 0 then RunStatus.failed
  else if s.passed = s.totalTests then RunStatus.passed
  else RunStatus.passed

theorem runLoopSummary_failed (total dur : Nat) (outcomes : List TestOutcome) :
    (runLoopSummary total outcomes dur).failed =
      outcomes.countP (· == TestOutcome.testFailed) := by
  unfold runLoopSummary
  have key : ∀ (os : List TestOutcome) (s : RunSummary),
      (os.foldl applyOutcome s).failed = s.failed + os.countP (· == TestOutcome.testFailed) := by
    intro os
    induction os with
    | nil => intro s; simp
    | cons o rest ih =>
      intro s
      cases o <;> simp [applyOutcome, List.countP_cons, List.foldl_cons, ih] <;> omega
  have := key outcomes
    { totalTests := total, passed := 0, failed := 0, skipped := 0, durationMs := dur }
  simpa using this

/-- C3: when the executor loop completes, the run's final status is
`failed` exactly when at least one executed test failed, and `passed`
otherwise — including when tests were skipped, and a run with zero tests
ends `passed`. -/
theorem executeRun_final_status (total dur : Nat) (outcomes : List TestOutcome) :
    (finalRunStatus (runLoopSummary total outcomes dur) =
      if outcomes.any (· == TestOutcome.testFailed) then RunStatus.failed
      else RunStatus.passed) ∧
    finalRunStatus (runLoopSummary total [] dur) = RunStatus.passed := by
  constructor
  · unfold finalRunStatus
    rw [runLoopSummary_failed]
    by_cases h : outcomes.any (· == TestOutcome.testFailed) = true
    · rcases List.any_eq_true.mp h with ⟨o, ho, hp⟩
      have : 0 < outcomes.countP (· == TestOutcome.testFailed) :=
        List.countP_pos_iff.mpr ⟨o, ho, hp⟩
      simp [h, this]
    · have hb : outcomes.any (· == TestOutcome.testFailed) = false :=
        Bool.eq_false_iff.mpr h
      have hc : outcomes.countP (· == TestOutcome.testFailed) = 0 := by
        rw [List.countP_eq_zero]
        intro o ho hcon
        exact h (List.any_eq_true.mpr ⟨o, ho, hcon⟩)
      rw [hc, hb]
      have h0 : ¬ (0 > 0) := by omega
      rw [if_neg h0, if_neg (by simp : ¬ (false = true))]
      split <;> rfl
  · unfold finalRunStatus runLoopSummary
    simp only [List.foldl_nil]
    rw [if_neg (by omega : ¬ ((0 : Nat) > 0))]
    split <;> rfl

-- ============================================================================
-- C10: skipPendingTests / updateRunTestStatus (db/models/runs.ts)
-- ============================================================================

/-- `skipPendingTests(runId)`: the SQL
`UPDATE run_tests SET status='skipped' WHERE run_id = ? AND status='pending'`
as a guarded map, together with the number of changed rows. -/
def skipPendingTests (runId : String) (rts : List RunTest) : List RunTest × Nat :=
  (rts.map (fun t =>
      if t.runId == runId && t.status == RunTestStatus.pending
      then { t with status := RunTestStatus.skipped } else t),
   rts.countP (fun t => t.runId == runId && t.status == RunTestStatus.pending))

/-- The optional `extra` argument of `updateRunTestStatus`. -/
structure UpdateExtra where
  durationMs : Option Nat := none
  errorMessage : Option String := none
  artifacts : Option TestArtifacts := none
deriving Repr

/-- JavaScript `x || null` on an optional number: 0 is falsy and becomes
null. -/
def orNullNat (o : Option Nat) : Option Nat :=
  match o with
  | some d => if d = 0 then none else some d
  | none => none

/-- JavaScript `x || null` on an optional string: the empty string is falsy
and becomes null. -/
def orNullStr (o : Option String) : Option String :=
  match o with
  | some s => if s = "" then none else some s
  | none => none

/-- `updateRunTestStatus(runId, testKey, status, extra)`: `running` stamps
`started_at`; a terminal status (`passed`/`failed`/`skipped`) stamps
`finished_at` and overwrites `duration_ms`, `error_message` and `artifacts`
from `extra` (absent / falsy fields become NULL); any other status writes
the status column alone. -/
def updateRunTestStatus (now : Nat) (runId testKey : String) (status : RunTestStatus)
    (extra : UpdateExtra) (rts : List RunTest) : List RunTest :=
  if status == RunTestStatus.running then
    rts.map (fun t =>
      if t.runId == runId && t.testKey == testKey
      then { t with status := status, startedAt := some now } else t)
  else if status == RunTestStatus.passed || status == RunTestStatus.failed ||
      status == RunTestStatus.skipped then
    rts.map (fun t =>
      if t.runId == runId && t.testKey == testKey
      then { t with status := status, finishedAt := some now,
                    durationMs := orNullNat extra.durationMs,
                    errorMessage := orNullStr extra.errorMessage,
                    artifacts := extra.artifacts } else t)
  else
    rts.map (fun t =>
      if t.runId == runId && t.testKey == testKey
      then { t with status := status } else t)

/-- C10: `skipPendingTests` changes only the status column, and only on the
given run's rows whose status is `pending` (to `skipped`); every other
column of those rows and every row of other runs or statuses is untouched —
in particular `finishedAt` stays as it was (null for a pending row), whereas
a skip recorded through `updateRunTestStatus` (the missing-definition path)
stamps `finishedAt := now` on the matched row. -/
theorem skipPendingTests_only_status (runId : String) (rts : List RunTest)
    (now : Nat) (key : String) (extra : UpdateExtra) :
    ((skipPendingTests runId rts).1.length = rts.length) ∧
    (∀ i : Nat, ((skipPendingTests runId rts).1[i]?).map RunTest.status =
        (rts[i]?).map (fun t =>
          if t.runId = runId ∧ t.status = RunTestStatus.pending
          then RunTestStatus.skipped else t.status)) ∧
    (∀ i : Nat, ((skipPendingTests runId rts).1[i]?).map RunTest.id = (rts[i]?).map RunTest.id) ∧
    (∀ i : Nat, ((skipPendingTests runId rts).1[i]?).map RunTest.runId = (rts[i]?).map RunTest.runId) ∧
    (∀ i : Nat, ((skipPendingTests runId rts).1[i]?).map RunTest.testId = (rts[i]?).map RunTest.testId) ∧
    (∀ i : Nat, ((skipPendingTests runId rts).1[i]?).map RunTest.testKey = (rts[i]?).map RunTest.testKey) ∧
    (∀ i : Nat, ((skipPendingTests runId rts).1[i]?).map RunTest.startedAt = (rts[i]?).map RunTest.startedAt) ∧
    (∀ i : Nat, ((skipPendingTests runId rts).1[i]?).map RunTest.finishedAt = (rts[i]?).map RunTest.finishedAt) ∧
    (∀ i : Nat, ((skipPendingTests runId rts).1[i]?).map RunTest.durationMs = (rts[i]?).map RunTest.durationMs) ∧
    (∀ i : Nat, ((skipPendingTests runId rts).1[i]?).map RunTest.errorMessage = (rts[i]?).map RunTest.errorMessage) ∧
    (∀ i : Nat, ((skipPendingTests runId rts).1[i]?).map RunTest.artifacts = (rts[i]?).map RunTest.artifacts) ∧
    (∀ i : Nat, ((updateRunTestStatus now runId key RunTestStatus.skipped extra rts)[i]?).map
        RunTest.finishedAt =
      (rts[i]?).map (fun t =>
        if t.runId = runId ∧ t.testKey = key then some now else t.finishedAt)) := by
  have hskip : ∀ i : Nat, ((skipPendingTests runId rts).1[i]?) =
      (rts[i]?).map (fun t =>
        if t.runId = runId ∧ t.status = RunTestStatus.pending
        then { t with status := RunTestStatus.skipped } else t) := by
    intro i
    simp only [skipPendingTests, List.getElem?_map]
    cases h : rts[i]? with
    | none => rfl
    | some t =>
      by_cases h1 : t.runId = runId <;> by_cases h2 : t.status = RunTestStatus.pending <;>
        simp [h1, h2]
  have hupd : ∀ i : Nat, ((updateRunTestStatus now runId key RunTestStatus.skipped extra rts)[i]?) =
      (rts[i]?).map (fun t =>
        if t.runId = runId ∧ t.testKey = key
        then { t with status := RunTestStatus.skipped, finishedAt := some now,
                      durationMs := orNullNat extra.durationMs,
                      errorMessage := orNullStr extra.errorMessage,
                      artifacts := extra.artifacts } else t) := by
    intro i
    have hdef : updateRunTestStatus now runId key RunTestStatus.skipped extra rts =
        rts.map (fun t =>
          if t.runId == runId && t.testKey == key
          then { t with status := RunTestStatus.skipped, finishedAt := some now,
                        durationMs := orNullNat extra.durationMs,
                        errorMessage := orNullStr extra.errorMessage,
                        artifacts := extra.artifacts } else t) := rfl
    rw [hdef, List.getElem?_map]
    cases h : rts[i]? with
    | none => rfl
    | some t =>
      by_cases h1 : t.runId = runId <;> by_cases h2 : t.testKey = key <;>
        simp [h1, h2]
  refine ⟨by simp [skipPendingTests], ?_, ?_, ?_, ?_, ?_, ?_, ?_, ?_, ?_, ?_, ?_⟩
  all_goals intro i
  all_goals first
    | (rw [hskip i]
       cases h : rts[i]? with
       | none => rfl
       | some t =>
         by_cases h1 : t.runId = runId <;> by_cases h2 : t.status = RunTestStatus.pending <;>
           simp [h1, h2])
    | (rw [hupd i]
       cases h : rts[i]? with
       | none => rfl
       | some t =>
         by_cases h1 : t.runId = runId <;> by_cases h2 : t.testKey = key <;> simp [h1, h2])

-- ============================================================================
-- C9: cancelRun (db/models/runs.ts)
-- ============================================================================

theorem map_eq_self_of {α : Type} (l : List α) (f : α → α) (h : ∀ x ∈ l, f x = x) :
    l.map f = l := by
  induction l with
  | nil => rfl
  | cons hd tl ih =>
    simp only [List.map_cons]
    rw [h hd (List.mem_cons_self _ _), ih (fun x hx => h x (List.mem_cons.mpr (Or.inr hx)))]

/-- The guard of `cancelRun`'s conditional UPDATE:
`status IN ('queued','running')`. -/
def cancellable (r : Run) : Bool :=
  r.status == RunStatus.queued || r.status == RunStatus.running

/-- `cancelRun(id)`: the SQL `UPDATE runs SET status='cancelled',
finished_at = now WHERE id = ? AND status IN ('queued','running')` as a
guarded map, returning `changes > 0`. -/
def cancelRun (now : Nat) (id : String) (runs : List Run) : List Run × Bool :=
  (runs.map (fun r =>
      if r.id == id && cancellable r
      then { r with status := RunStatus.cancelled, finishedAt := some now } else r),
   decide (0 < runs.countP (fun r => r.id == id && cancellable r)))

/-- C9: `cancelRun` succeeds exactly when the target run is currently
queued or running, in which case it becomes cancelled with `finishedAt`
stamped; on a run in any other status it changes nothing, and a second
call on the resulting state is always a no-op that reports failure. -/
theorem cancelRun_conditional_and_idempotent (now now2 : Nat) (id : String)
    (runs : List Run) (hnd : (runs.map Run.id).Nodup)
    (r : Run) (hr : r ∈ runs) (hid : r.id = id) :
    ((cancelRun now id runs).2 = true ↔
      (r.status = RunStatus.queued ∨ r.status = RunStatus.running)) ∧
    (¬(r.status = RunStatus.queued ∨ r.status = RunStatus.running) →
      (cancelRun now id runs).1 = runs) ∧
    (∀ i : Nat, (cancelRun now id runs).1[i]? = (runs[i]?).map (fun x =>
        if x.id = id ∧ (x.status = RunStatus.queued ∨ x.status = RunStatus.running)
        then { x with status := RunStatus.cancelled, finishedAt := some now } else x)) ∧
    (cancelRun now2 id (cancelRun now id runs).1 = ((cancelRun now id runs).1, false)) := by
  have huniq : ∀ x ∈ runs, x.id = id → x = r := by
    intro x hx hxid
    exact List.inj_on_of_nodup_map hnd hx hr (by rw [hxid, hid])
  have hcanc : ∀ x : Run, cancellable x = true ↔
      (x.status = RunStatus.queued ∨ x.status = RunStatus.running) := by
    intro x
    simp [cancellable]
  refine ⟨?_, ?_, ?_, ?_⟩
  · simp only [cancelRun, decide_eq_true_eq]
    rw [List.countP_pos_iff]
    constructor
    · rintro ⟨x, hx, hpx⟩
      simp only [Bool.and_eq_true, beq_iff_eq] at hpx
      have := huniq x hx hpx.1
      subst this
      exact (hcanc x).mp hpx.2
    · intro hst
      refine ⟨r, hr, ?_⟩
      simp only [Bool.and_eq_true, beq_iff_eq]
      exact ⟨hid, (hcanc r).mpr hst⟩
  · intro hnot
    show List.map _ runs = runs
    apply map_eq_self_of
    intro x hx
    by_cases hxid : x.id = id
    · have := huniq x hx hxid
      subst this
      have hcf : cancellable x = false := by
        rw [← Bool.not_eq_true, hcanc x]
        exact hnot
      simp [hcf]
    · simp [hxid]
  · intro i
    simp only [cancelRun, List.getElem?_map]
    cases h : runs[i]? with
    | none => rfl
    | some x =>
      by_cases h1 : x.id = id <;>
        by_cases hq : x.status = RunStatus.queued <;>
        by_cases hrn : x.status = RunStatus.running <;>
        simp [cancellable, h1, hq, hrn]
  · have hnone : ∀ x ∈ (cancelRun now id runs).1,
        (x.id == id && cancellable x) = false := by
      intro x hx
      simp only [cancelRun] at hx
      rcases List.mem_map.mp hx with ⟨y, hy, hyx⟩
      by_cases hcy : (y.id == id && cancellable y) = true
      · rw [if_pos hcy] at hyx
        subst hyx
        simp [cancellable]
      · rw [if_neg hcy] at hyx
        subst hyx
        simpa using hcy
    have hcount : (cancelRun now id runs).1.countP
        (fun x => x.id == id && cancellable x) = 0 := by
      rw [List.countP_eq_zero]
      intro x hx hpx
      rw [hnone x hx] at hpx
      exact Bool.false_ne_true hpx
    have hmap : (cancelRun now id runs).1.map (fun x =>
        if x.id == id && cancellable x
        then { x with status := RunStatus.cancelled, finishedAt := some now2 } else x) =
        (cancelRun now id runs).1 := by
      apply map_eq_self_of
      intro x hx
      rw [hnone x hx]
      rfl
    show ((cancelRun now id runs).1.map _, _) = _
    rw [hmap, hcount]
    rfl

/-- A queued run used by the cancellation witness. -/
def rqueued : Run := { id := "a", status := RunStatus.queued, environment := "SIT1" }

/-- A finished run used by the cancellation witness. -/
def rpassed : Run := { id := "b", status := RunStatus.passed, environment := "SIT1" }

theorem cancelRun_conditional_and_idempotent_witness :
    ((cancelRun 50 "a" [rqueued, rpassed]).2 = true) ∧
    (cancelRun 60 "a" (cancelRun 50 "a" [rqueued, rpassed]).1 =
      ((cancelRun 50 "a" [rqueued, rpassed]).1, false)) := by
  have h := cancelRun_conditional_and_idempotent 50 60 "a" [rqueued, rpassed]
    (by decide) rqueued (List.mem_cons_self _ _) rfl
  exact ⟨h.1.mpr (Or.inl rfl), h.2.2.2⟩

-- ============================================================================
-- C4: startup recovery (core/startup-cleanup.ts, cleanupOrphanedRuns)
-- ============================================================================

/-- A schedule's selector: a tagged variant (types/index.ts). -/
inductive ScheduleSelector where
  | folder (folderPre : String)
  | tags (tags : List String)
  | explicit (testKeys : List String)
deriving Repr

/-- A `schedules` row. -/
structure Schedule where
  id : String
  name : String
  cron : String
  enabled : Bool
  environment : String
  lastTriggeredAt : Option Nat := none
  selector : ScheduleSelector
  defaultRunOverrides : Option ObjMap := none
  createdByEmail : Option String := none
deriving Repr

/-- The store: the four tables the verified operations touch. -/
structure DBState where
  runs : List Run := []
  runTests : List RunTest := []
  tests : List TestDefinition := []
  schedules : List Schedule := []
deriving Repr

/-- The startup-recovery selection predicate: `status IN ('running','queued')`. -/
def isOrphanedRun (r : Run) : Bool :=
  r.status == RunStatus.running || r.status == RunStatus.queued

/-- The run_tests selection predicate of the recovery UPDATE:
`status IN ('pending','running')`. -/
def isInFlight (t : RunTest) : Bool :=
  t.status == RunTestStatus.pending || t.status == RunTestStatus.running

/-- The literal error message stamped by startup recovery. -/
def interruptMsg : String := "Test execution interrupted by server restart"

/-- The per-run effect of the recovery UPDATE: set status failed and stamp
finished_at. -/
def failRunRow (now : Nat) (r : Run) : Run :=
  { r with status := RunStatus.failed, finishedAt := some now }

/-- The per-test effect of the recovery UPDATE: set status failed, stamp
finished_at and the interrupt message. -/
def failRunTestRow (now : Nat) (t : RunTest) : RunTest :=
  { t with status := RunTestStatus.failed, finishedAt := some now,
           errorMessage := some interruptMsg }

/-- `UPDATE runs SET status='failed', finished_at = now WHERE id = ?`. -/
def failRunById (now : Nat) (id : String) (runs : List Run) : List Run :=
  runs.map (fun r => if r.id == id then failRunRow now r else r)

/-- `UPDATE run_tests SET status='failed', finished_at = now,
error_message = interruptMsg WHERE run_id = ? AND status IN
('pending','running')`. -/
def failRunTestsByRunId (now : Nat) (id : String) (rts : List RunTest) : List RunTest :=
  rts.map (fun t => if t.runId == id && isInFlight t then failRunTestRow now t else t)

/-- `cleanupOrphanedRuns()` (core/startup-cleanup.ts): select the runs in
('running','queued'), then in one transaction fail each selected run and
its in-flight run_tests. -/
def cleanupOrphanedRuns (now : Nat) (db : DBState) : DBState :=
  let orphanedRuns := db.runs.filter isOrphanedRun
  orphanedRuns.foldl (fun st run =>
    { st with runs := failRunById now run.id st.runs,
              runTests := failRunTestsByRunId now run.id st.runTests }) db

theorem foldl_failRunById (now : Nat) (os : List Run) (rs : List Run) :
    os.foldl (fun acc o => failRunById now o.id acc) rs =
      rs.map (fun r => if os.any (fun o => r.id == o.id) then failRunRow now r else r) := by
  induction os generalizing rs with
  | nil =>
    simp only [List.foldl_nil, List.any_nil]
    rw [map_eq_self_of]
    intro x _
    rfl
  | cons o os ih =>
    simp only [List.foldl_cons]
    rw [ih, failRunById, List.map_map]
    congr 1
    funext r
    simp only [Function.comp_apply]
    by_cases h1 : (r.id == o.id) = true
    · rw [if_pos h1]
      have hany : ((o :: os).any fun o' => r.id == o'.id) = true := by
        simp only [List.any_cons, h1, Bool.true_or]
      rw [hany, if_pos rfl]
      by_cases h2 : (os.any fun o' => (failRunRow now r).id == o'.id) = true
      · rw [if_pos h2]
        rfl
      · rw [if_neg h2]
    · rw [if_neg h1]
      have h1' : (r.id == o.id) = false := by simpa using h1
      have hany : ((o :: os).any fun o' => r.id == o'.id) =
          (os.any fun o' => r.id == o'.id) := by
        simp only [List.any_cons, h1', Bool.false_or]
      rw [hany]

theorem foldl_failRunTests (now : Nat) (os : List Run) (ts : List RunTest) :
    os.foldl (fun acc o => failRunTestsByRunId now o.id acc) ts =
      ts.map (fun t => if os.any (fun o => t.runId == o.id) && isInFlight t
        then failRunTestRow now t else t) := by
  induction os generalizing ts with
  | nil =>
    simp only [List.foldl_nil, List.any_nil]
    rw [map_eq_self_of]
    intro x _
    rfl
  | cons o os ih =>
    simp only [List.foldl_cons]
    rw [ih, failRunTestsByRunId, List.map_map]
    congr 1
    funext t
    simp only [Function.comp_apply]
    by_cases h1 : (t.runId == o.id && isInFlight t) = true
    · rw [if_pos h1]
      have h1a : (t.runId == o.id) = true := (Bool.and_eq_true_iff.mp h1).1
      have h1b : isInFlight t = true := (Bool.and_eq_true_iff.mp h1).2
      have hdead : isInFlight (failRunTestRow now t) = false := rfl
      rw [hdead]
      rw [if_neg (by simp)]
      rw [if_pos (by simp [List.any_cons, h1a, h1b])]
    · rw [if_neg h1]
      by_cases hb : isInFlight t = true
      · have ha : (t.runId == o.id) = false := by
          rcases hx : (t.runId == o.id) with _ | _
          · rfl
          · exact absurd (by rw [hx, hb]; rfl) h1
        simp only [List.any_cons, ha, Bool.false_or]
      · have hb' : isInFlight t = false := by simpa using hb
        simp [hb']

/-- True iff the original store holds an orphaned (queued/running) run with
this id. -/
def hadOrphanedRun (db : DBState) (rid : String) : Bool :=
  db.runs.any (fun r => rid == r.id && isOrphanedRun r)

theorem cleanupOrphanedRuns_eq (now : Nat) (db : DBState) :
    cleanupOrphanedRuns now db =
      { db with
        runs := (db.runs.filter isOrphanedRun).foldl
          (fun acc o => failRunById now o.id acc) db.runs,
        runTests := (db.runs.filter isOrphanedRun).foldl
          (fun acc o => failRunTestsByRunId now o.id acc) db.runTests } := by
  unfold cleanupOrphanedRuns
  generalize db.runs.filter isOrphanedRun = os
  induction os generalizing db with
  | nil => rfl
  | cons o os ih =>
    simp only [List.foldl_cons]
    rw [ih]

/-- C4: startup recovery fails every queued/running run (stamping
`finishedAt`) and every pending/running run_test of such a run (stamping
`finishedAt` and the interrupt message), leaves every other row byte-for-
byte unchanged, and afterwards no run is queued or running. -/
theorem cleanupOrphanedRuns_spec (now : Nat) (db : DBState)
    (hnd : (db.runs.map Run.id).Nodup) :
    (∀ i : Nat, (cleanupOrphanedRuns now db).runs[i]? =
      (db.runs[i]?).map (fun r => if isOrphanedRun r then failRunRow now r else r)) ∧
    (∀ j : Nat, (cleanupOrphanedRuns now db).runTests[j]? =
      (db.runTests[j]?).map (fun t =>
        if hadOrphanedRun db t.runId && isInFlight t then failRunTestRow now t else t)) ∧
    (∀ r ∈ (cleanupOrphanedRuns now db).runs,
      r.status ≠ RunStatus.queued ∧ r.status ≠ RunStatus.running) ∧
    (cleanupOrphanedRuns now db).tests = db.tests ∧
    (cleanupOrphanedRuns now db).schedules = db.schedules := by
  have hstate := cleanupOrphanedRuns_eq now db
  have hruns := foldl_failRunById now (db.runs.filter isOrphanedRun) db.runs
  have hts := foldl_failRunTests now (db.runs.filter isOrphanedRun) db.runTests
  refine ⟨?_, ?_, ?_, ?_, ?_⟩
  · intro i
    rw [hstate]
    show ((db.runs.filter isOrphanedRun).foldl
        (fun acc o => failRunById now o.id acc) db.runs)[i]? = _
    rw [hruns, List.getElem?_map]
    cases h : db.runs[i]? with
    | none => rfl
    | some r =>
      simp only [Option.map_some']
      have hrmem : r ∈ db.runs := List.getElem?_mem h
      have hcond : ((db.runs.filter isOrphanedRun).any (fun o => r.id == o.id)) =
          isOrphanedRun r := by
        rcases ho : isOrphanedRun r with _ | _
        · rw [← ho]
          by_contra hc
          have hc' : (db.runs.filter isOrphanedRun).any (fun o => r.id == o.id) = true := by
            rcases hx : (db.runs.filter isOrphanedRun).any (fun o => r.id == o.id) with _ | _
            · rw [hx] at hc; exact absurd ho.symm hc
            · rfl
          rcases List.any_eq_true.mp hc' with ⟨o, hofilter, hoid⟩
          have homem := List.mem_of_mem_filter hofilter
          have hoorph := List.of_mem_filter hofilter
          have hoid' : r.id = o.id := by simpa using hoid
          have : o = r := List.inj_on_of_nodup_map hnd homem hrmem hoid'.symm
          subst this
          rw [ho] at hoorph
          exact Bool.false_ne_true hoorph
        · apply List.any_eq_true.mpr
          exact ⟨r, List.mem_filter.mpr ⟨hrmem, ho⟩, by simp⟩
      rw [hcond]
  · intro j
    rw [hstate]
    show ((db.runs.filter isOrphanedRun).foldl
        (fun acc o => failRunTestsByRunId now o.id acc) db.runTests)[j]? = _
    rw [hts, List.getElem?_map]
    cases h : db.runTests[j]? with
    | none => rfl
    | some t =>
      simp only [Option.map_some']
      have hcond : (db.runs.filter isOrphanedRun).any (fun o => t.runId == o.id) =
          hadOrphanedRun db t.runId := by
        rw [hadOrphanedRun, List.any_filter]
        congr 1
        funext r
        rw [Bool.and_comm]
      rw [hcond]
  · intro r hrmem
    rw [hstate] at hrmem
    have : r ∈ (db.runs.filter isOrphanedRun).foldl
        (fun acc o => failRunById now o.id acc) db.runs := hrmem
    rw [hruns] at this
    rcases List.mem_map.mp this with ⟨x, hx, hxr⟩
    by_cases hox : isOrphanedRun x = true
    · have hcx : ((db.runs.filter isOrphanedRun).any fun o => x.id == o.id) = true :=
        List.any_eq_true.mpr ⟨x, List.mem_filter.mpr ⟨hx, hox⟩, by simp⟩
      rw [if_pos hcx] at hxr
      subst hxr
      exact ⟨by simp [failRunRow], by simp [failRunRow]⟩
    · have hcx : ¬ (((db.runs.filter isOrphanedRun).any fun o => x.id == o.id) = true) := by
        intro hc
        rcases List.any_eq_true.mp hc with ⟨o, hofil, hoid⟩
        have homem := List.mem_of_mem_filter hofil
        have hoorph := List.of_mem_filter hofil
        have hxo : x.id = o.id := by simpa using hoid
        have hox' : o = x := List.inj_on_of_nodup_map hnd homem hx hxo.symm
        subst hox'
        exact hox hoorph
      rw [if_neg hcx] at hxr
      subst hxr
      have hx2 := hox
      simp only [isOrphanedRun, Bool.or_eq_true, beq_iff_eq] at hx2
      push_neg at hx2
      exact ⟨hx2.2, hx2.1⟩
  · rw [hstate]
  · rw [hstate]

/-- A store with one running run (with an in-flight and a passed test), one
queued run and one passed run, used by the recovery witness. -/
def dbOrphans : DBState :=
  { runs := [ { id := "r1", status := RunStatus.running, environment := "SIT1" },
              { id := "r2", status := RunStatus.queued, environment := "SIT1" },
              { id := "r3", status := RunStatus.passed, environment := "SIT1" } ],
    runTests := [ { id := "t1", runId := "r1", testId := "d1", testKey := "k1",
                    status := RunTestStatus.running },
                  { id := "t2", runId := "r1", testId := "d2", testKey := "k2",
                    status := RunTestStatus.passed },
                  { id := "t3", runId := "r3", testId := "d3", testKey := "k3",
                    status := RunTestStatus.passed } ] }

theorem cleanupOrphanedRuns_spec_witness :
    ((cleanupOrphanedRuns 77 dbOrphans).runs[0]? =
      some { id := "r1", status := RunStatus.failed, environment := "SIT1",
             finishedAt := some 77 }) ∧
    ((cleanupOrphanedRuns 77 dbOrphans).runs[2]? =
      some { id := "r3", status := RunStatus.passed, environment := "SIT1" }) ∧
    ((cleanupOrphanedRuns 77 dbOrphans).runTests[0]? =
      some { id := "t1", runId := "r1", testId := "d1", testKey := "k1",
             status := RunTestStatus.failed, finishedAt := some 77,
             errorMessage := some interruptMsg }) ∧
    ((cleanupOrphanedRuns 77 dbOrphans).runTests[1]? =
      some { id := "t2", runId := "r1", testId := "d2", testKey := "k2",
             status := RunTestStatus.passed }) := by
  have h := cleanupOrphanedRuns_spec 77 dbOrphans (by decide)
  refine ⟨?_, ?_, ?_, ?_⟩
  · rw [h.1 0]; rfl
  · rw [h.1 2]; rfl
  · rw [h.2.1 0]; rfl
  · rw [h.2.1 1]; rfl

-- ============================================================================
-- C2: live log polling (api/tests.ts, GET /:runId/tests/:testKey/logs)
-- ============================================================================

/-- A UTF-8 continuation byte. -/
def isCont (x : Nat) : Bool := 0x80 ≤ x && x ≤ 0xBF

/-- Valid second byte of a three-byte sequence led by `b` (WHATWG ranges,
excluding overlongs and surrogates). -/
def cont3 (b b1 : Nat) : Bool :=
  if b = 0xE0 then 0xA0 ≤ b1 && b1 ≤ 0xBF
  else if b = 0xED then 0x80 ≤ b1 && b1 ≤ 0x9F
  else isCont b1

/-- Valid second byte of a four-byte sequence led by `b`. -/
def cont4 (b b1 : Nat) : Bool :=
  if b = 0xF0 then 0x90 ≤ b1 && b1 ≤ 0xBF
  else if b = 0xF4 then 0x80 ≤ b1 && b1 ≤ 0x8F
  else isCont b1

/-- Decode UTF-8 bytes into Unicode code points, as Node's
`readFileSync(path, 'utf-8')` does; malformed sequences produce U+FFFD.
The fuel argument (always the remaining byte count at the top-level call,
and every step consumes at least one byte) makes the recursion structural. -/
def utf8DecodeAux : Nat → List Nat → List Nat
  | 0, _ => []
  | _, [] => []
  | fuel + 1, b :: rest =>
    if b < 0x80 then b :: utf8DecodeAux fuel rest
    else if 0xC2 ≤ b && b ≤ 0xDF then
      match rest with
      | b1 :: rest2 =>
        if isCont b1 then ((b - 0xC0) * 0x40 + (b1 - 0x80)) :: utf8DecodeAux fuel rest2
        else 0xFFFD :: utf8DecodeAux fuel rest
      | [] => [0xFFFD]
    else if 0xE0 ≤ b && b ≤ 0xEF then
      match rest with
      | b1 :: b2 :: rest3 =>
        if cont3 b b1 && isCont b2 then
          ((b - 0xE0) * 0x1000 + (b1 - 0x80) * 0x40 + (b2 - 0x80)) :: utf8DecodeAux fuel rest3
        else 0xFFFD :: utf8DecodeAux fuel rest
      | _ => 0xFFFD :: utf8DecodeAux fuel rest
    else if 0xF0 ≤ b && b ≤ 0xF4 then
      match rest with
      | b1 :: b2 :: b3 :: rest4 =>
        if cont4 b b1 && isCont b2 && isCont b3 then
          ((b - 0xF0) * 0x40000 + (b1 - 0x80) * 0x1000 + (b2 - 0x80) * 0x40 + (b3 - 0x80))
            :: utf8DecodeAux fuel rest4
        else 0xFFFD :: utf8DecodeAux fuel rest
      | _ => 0xFFFD :: utf8DecodeAux fuel rest
    else 0xFFFD :: utf8DecodeAux fuel rest

/-- Decode a whole byte file. -/
def utf8Decode (bs : List Nat) : List Nat := utf8DecodeAux bs.length bs

/-- A JavaScript string as its UTF-16 code units: code points beyond the
BMP become surrogate pairs. `String.prototype.slice` and `.length` count
these units. -/
def utf16Units (cps : List Nat) : List Nat :=
  cps.flatMap (fun c =>
    if c < 0x10000 then [c]
    else [0xD800 + (c - 0x10000) / 0x400, 0xDC00 + (c - 0x10000) % 0x400])

/-- The JS string obtained by reading a byte file with encoding utf-8. -/
def jsFileString (bytes : List Nat) : List Nat := utf16Units (utf8Decode bytes)

/-- The wire shape of the logs endpoint; `content` is the returned string
as UTF-16 code units. -/
structure LogsResponse where
  content : List Nat
  offset : Nat
  finished : Bool
deriving Repr, DecidableEq

/-- `finished = ['passed','failed','skipped'].includes(test.status)`. -/
def logsFinished (status : RunTestStatus) : Bool :=
  status == RunTestStatus.passed || status == RunTestStatus.failed ||
    status == RunTestStatus.skipped

/-- The logs handler (api/tests.ts): reads `console.log` as a UTF-8 decoded
JS string, slices it from `offset` and reports the string's length as the
new offset; when the file is missing it returns empty content and echoes
the offset; `finished` reflects the run_test's status. `file` is `none`
when `console.log` does not exist. -/
def logsHandler (file : Option (List Nat)) (offset : Nat) (status : RunTestStatus) :
    LogsResponse :=
  match file with
  | some bytes =>
    let fullContent := jsFileString bytes
    { content := fullContent.drop offset, offset := fullContent.length,
      finished := logsFinished status }
  | none =>
    { content := [], offset := offset, finished := logsFinished status }

/-- Modelled from the spec's words (the claim as stated): the response
content is the byte substring of the file from byte `offset`, and the new
offset is the file's total byte length. -/
def logsByteContract (file : Option (List Nat)) (offset : Nat) (status : RunTestStatus) :
    LogsResponse :=
  match file with
  | some bytes =>
    { content := bytes.drop offset, offset := bytes.length,
      finished := logsFinished status }
  | none =>
    { content := [], offset := offset, finished := logsFinished status }

/-- C2: the handler does not implement byte semantics: for a console.log
holding the two UTF-8 bytes 0xC3 0xA9 (the character é) and offset 0, the
code returns the decoded code unit 0xE9 with new offset 1 (the JS string
length), while the claimed contract requires the raw bytes and offset 2
(the byte length). -/
theorem logsHandler_diverges_from_byte_contract :
    logsHandler (some [0xC3, 0xA9]) 0 RunTestStatus.running =
      { content := [0xE9], offset := 1, finished := false } ∧
    logsByteContract (some [0xC3, 0xA9]) 0 RunTestStatus.running =
      { content := [0xC3, 0xA9], offset := 2, finished := false } ∧
    logsHandler (some [0xC3, 0xA9]) 0 RunTestStatus.running ≠
      logsByteContract (some [0xC3, 0xA9]) 0 RunTestStatus.running := by
  refine ⟨by decide, by decide, by decide⟩

-- ============================================================================
-- C7: discovery safety valve (core/discovery/index.ts, db/models/tests.ts)
-- ============================================================================

/-- A directory of the deployed test tree: files carry the result of
JSON-parsing their contents (`none` when `JSON.parse` would throw; the
content of non-JSON files such as spec files is irrelevant and may be
anything), plus named subdirectories. -/
inductive DirTree where
  | node (files : List (String × Option JValue)) (subdirs : List (String × DirTree))

/-- The files of a directory. -/
def DirTree.files : DirTree → List (String × Option JValue)
  | DirTree.node fs _ => fs

/-- The subdirectories of a directory. -/
def DirTree.subdirs : DirTree → List (String × DirTree)
  | DirTree.node _ ds => ds

/-- `isTestFolder(dir)`: the directory holds a `meta.json` and at least one
`*.spec.js` file. -/
def isTestFolder (d : DirTree) : Bool :=
  d.files.any (fun f => f.1 == "meta.json") && d.files.any (fun f => f.1.endsWith ".spec.js")

/-- Read a string-valued field of a parsed JSON object (a missing field,
non-object or non-string value reads as the empty string, which is falsy
like the original `undefined`). -/
def jStrField (j : JValue) (k : String) : String :=
  match j with
  | JValue.obj fields =>
    match getKey fields k with
    | some (JValue.s v) => v
    | _ => ""
  | _ => ""

/-- The unchecked `as TestMeta` cast of the parsed `meta.json`. -/
def castTestMeta (j : JValue) : TestMeta :=
  { testKey := jStrField j "testKey"
    friendlyName := jStrField j "friendlyName"
    description := none
    tags :=
      match j with
      | JValue.obj fields =>
        match getKey fields "tags" with
        | some (JValue.arr vs) => vs.filterMap (fun v =>
            match v with
            | JValue.s t => some t
            | _ => none)
        | _ => []
      | _ => [] }

/-- The unchecked `as TestConstants` cast of the parsed `constants.json`. -/
def castTestConstants (j : JValue) : TestConstants :=
  match j with
  | JValue.obj fields =>
    { shared :=
        match getKey fields "shared" with
        | some (JValue.obj m) => some m
        | _ => none
      environments :=
        match getKey fields "environments" with
        | some (JValue.obj es) => some (es.filterMap (fun p =>
            match p.2 with
            | JValue.obj m => some (p.1, m)
            | _ => none))
        | _ => none }
  | _ => { shared := none, environments := none }

/-- The result of parsing one test folder. -/
structure DiscoveredTest where
  folderPath : String
  specPath : String
  meta : TestMeta
  constants : TestConstants
deriving Repr

/-- POSIX path join used for the relative folder and spec paths. -/
def joinPath (a b : String) : String := if a = "" then b else a ++ "/" ++ b

/-- `parseTestFolder(dir)`: parse `meta.json` (a parse error is caught and
the folder skipped), require truthy `testKey` and `friendlyName`, parse the
optional `constants.json` (empty constants when absent, a parse error skips
the folder), and locate the first `*.spec.js` file. -/
def parseTestFolder (pathStr : String) (files : List (String × Option JValue)) :
    Option DiscoveredTest :=
  match (files.find? (fun f => f.1 == "meta.json")).map (·.2) with
  | none => none
  | some none => none
  | some (some mj) =>
    let meta := castTestMeta mj
    if meta.testKey = "" || meta.friendlyName = "" then none
    else
      let constantsParse : Option TestConstants :=
        match (files.find? (fun f => f.1 == "constants.json")).map (·.2) with
        | none => some { shared := none, environments := none }
        | some none => none
        | some (some cj) => some (castTestConstants cj)
      match constantsParse with
      | none => none
      | some constants =>
        match files.find? (fun f => f.1.endsWith ".spec.js") with
        | none => none
        | some specFile =>
          some { folderPath := pathStr, specPath := joinPath pathStr specFile.1,
                 meta := meta, constants := constants }

/-- `scanDirectory(dir)`: every subdirectory that is a test folder is
parsed (parse failures are logged and skipped); other subdirectories are
scanned recursively. -/
def scanDirectory (pathStr : String) (d : DirTree) : List DiscoveredTest :=
  match d with
  | DirTree.node _ subdirs =>
    subdirs.attach.flatMap (fun p =>
      let subPath := joinPath pathStr p.1.1
      if isTestFolder p.1.2 then (parseTestFolder subPath p.1.2.files).toList
      else scanDirectory subPath p.1.2)
termination_by sizeOf d
decreasing_by
  have hlt := List.sizeOf_lt_of_mem p.2
  have hp : sizeOf p.1.2 < sizeOf p.1 := by
    cases hval : p.1 with
    | mk a b => simp [hval]
  simp only [DirTree.node.sizeOf_spec]
  omega

/-- `discoverTests()`: a nonexistent test root warns and returns the empty
list; otherwise the root is scanned (the root itself is never a test
folder). -/
def discoverTests (root : Option DirTree) : List DiscoveredTest :=
  match root with
  | none => []
  | some d => scanDirectory "" d

/-- `upsertTest(discovered)` (db/models/tests.ts): update by `testKey`
replacing location, meta and constants, reactivating and bumping
`updatedAt` — never touching `overrides` — or insert a fresh row. -/
def upsertTest (now : Nat) (newId : String) (d : DiscoveredTest)
    (tests : List TestDefinition) : List TestDefinition :=
  if tests.any (fun t => t.testKey == d.meta.testKey) then
    tests.map (fun t =>
      if t.testKey == d.meta.testKey then
        { t with folderPath := d.folderPath, specPath := d.specPath,
                 meta := d.meta, constants := d.constants,
                 active := true, updatedAt := now }
      else t)
  else
    tests ++ [{ id := newId, testKey := d.meta.testKey, folderPath := d.folderPath,
                specPath := d.specPath, meta := d.meta, constants := d.constants,
                overrides := none, active := true, createdAt := now, updatedAt := now }]

/-- `deactivateTestsNotIn(activeTestKeys)`: with an empty key list the SQL
deactivates every row; otherwise rows whose key is not in the list. -/
def deactivateTestsNotIn (activeTestKeys : List String)
    (tests : List TestDefinition) : List TestDefinition :=
  if activeTestKeys.isEmpty then
    tests.map (fun t => { t with active := false })
  else
    tests.map (fun t =>
      if activeTestKeys.contains t.testKey then t else { t with active := false })

/-- `runDiscoveryAndSync()`: discover, and when nothing was discovered
return without touching the database; otherwise upsert every discovered
test and deactivate the unseen keys. Fresh row ids are supplied by `ids`. -/
def runDiscoveryAndSync (now : Nat) (ids : Nat → String) (root : Option DirTree)
    (tests : List TestDefinition) : List TestDefinition :=
  let discovered := discoverTests root
  if discovered.length = 0 then tests
  else
    let upserted := discovered.enum.foldl (fun acc p => upsertTest now (ids p.1) p.2 acc) tests
    let testKeys := discovered.map (·.meta.testKey)
    deactivateTestsNotIn testKeys upserted

/-- C7: when discovery finds no test folder — in particular when the test
root does not exist — the catalog is returned untouched: no upsert and no
deactivation happens. -/
theorem runDiscoveryAndSync_empty_is_noop (now : Nat) (ids : Nat → String)
    (root : Option DirTree) (tests : List TestDefinition)
    (h : discoverTests root = []) :
    runDiscoveryAndSync now ids root tests = tests ∧
    runDiscoveryAndSync now ids none tests = tests := by
  constructor
  · unfold runDiscoveryAndSync
    rw [h]
    rfl
  · rfl

theorem runDiscoveryAndSync_empty_is_noop_witness :
    runDiscoveryAndSync 5 (fun _ => "id") (some (DirTree.node [] []))
      [{ id := "t-1", testKey := "auth.basic-login", folderPath := "auth/basic-login",
         specPath := "auth/basic-login/basic-login.spec.js",
         meta := { testKey := "auth.basic-login", friendlyName := "Basic login" },
         constants := { shared := none, environments := none } }] =
      [{ id := "t-1", testKey := "auth.basic-login", folderPath := "auth/basic-login",
         specPath := "auth/basic-login/basic-login.spec.js",
         meta := { testKey := "auth.basic-login", friendlyName := "Basic login" },
         constants := { shared := none, environments := none } }] :=
  (runDiscoveryAndSync_empty_is_noop 5 (fun _ => "id") (some (DirTree.node [] [])) _
    (by simp [discoverTests, scanDirectory])).1

-- ============================================================================
-- C8: retention sweep (db/migrations.ts source: runCleanup,
-- cleanupOrphanedArtifacts)
-- ============================================================================

/-- A hexadecimal digit, either case (the regex is case-insensitive). -/
def isHexDigit (c : Char) : Bool :=
  ('0' ≤ c && c ≤ '9') || ('a' ≤ c && c ≤ 'f') || ('A' ≤ c && c ≤ 'F')

/-- `isUuidLike(str)`: the
`^[0-9a-f]{8}-[0-9a-f]{4}-[0-9a-f]{4}-[0-9a-f]{4}-[0-9a-f]{12}$`
test (case-insensitive): 36 characters, hyphens at indices 8, 13, 18 and
23, hex digits everywhere else. -/
def isUuidLike (str : String) : Bool :=
  let cs := str.toList
  cs.length == 36 &&
    cs.enum.all (fun p =>
      if p.1 = 8 || p.1 = 13 || p.1 = 18 || p.1 = 23 then p.2 == '-'
      else isHexDigit p.2)

/-- `getOldRunIds(retentionDays)`: ids of runs with `created_at < cutoff`. -/
def getOldRunIds (cutoff : Nat) (runs : List Run) : List String :=
  (runs.filter (fun r => decide (r.createdAt < cutoff))).map Run.id

/-- `cleanupOrphanedArtifacts(artifactRoot)`: delete every immediate child
directory whose name looks like a UUID and has no row in `runs`; keep the
rest. The artifact root is modelled as the list of its child directory
names. -/
def cleanupOrphanedArtifacts (runs : List Run) (dirs : List String) : List String :=
  dirs.filter (fun d => !(isUuidLike d) || runs.any (fun r => r.id == d))

/-- `runCleanup()`: fetch the over-retention run ids and, when there are
none, return immediately; otherwise remove those runs' artifact
directories, delete the run rows (the FK cascade removes their run_tests),
and only then reap orphaned artifact directories. -/
def runCleanup (cutoff : Nat) (db : DBState) (dirs : List String) :
    DBState × List String :=
  let oldRunIds := getOldRunIds cutoff db.runs
  if oldRunIds.length = 0 then (db, dirs)
  else
    let dirs1 := dirs.filter (fun d => !(oldRunIds.contains d))
    let db1 := { db with
      runs := db.runs.filter (fun r => !(decide (r.createdAt < cutoff))),
      runTests := db.runTests.filter (fun t => !(oldRunIds.contains t.runId)) }
    (db1, cleanupOrphanedArtifacts db1.runs dirs1)

/-- A store whose single run is within the retention window. -/
def dbFresh : DBState :=
  { runs := [ { id := "r9", status := RunStatus.passed, environment := "SIT1",
                createdAt := 100 } ] }

/-- C8 counterexample: with zero over-retention runs the sweep returns
before the orphan reaper, so a UUID-named directory with no runs-table row
survives the sweep, contradicting the claim that every sweep reaps it. -/
theorem runCleanup_keeps_orphan_when_no_old_runs :
    isUuidLike "00000000-0000-0000-0000-000000000000" = true ∧
    (dbFresh.runs.any
      (fun r => r.id == "00000000-0000-0000-0000-000000000000")) = false ∧
    (runCleanup 10 dbFresh ["00000000-0000-0000-0000-000000000000"]).2 =
      ["00000000-0000-0000-0000-000000000000"] ∧
    (runCleanup 10 dbFresh ["00000000-0000-0000-0000-000000000000"]).1 = dbFresh := by
  refine ⟨by decide, by decide, by decide, rfl⟩

instance (l : List Run) (d : String) : Decidable (∃ r ∈ l, r.id = d) :=
  List.decidableBEx _ l

/-- C8 as amended: a sweep that finds no over-retention run changes
nothing at all; a sweep that finds at least one deletes exactly the
over-retention runs (cascading their run_tests) and then keeps an artifact
child directory iff it is not an old run's directory and is not an orphan —
that is, every UUID-named directory without a remaining runs row is
removed and everything else survives. -/
theorem runCleanup_spec (cutoff : Nat) (db : DBState) (dirs : List String) :
    (getOldRunIds cutoff db.runs = [] → runCleanup cutoff db dirs = (db, dirs)) ∧
    (getOldRunIds cutoff db.runs ≠ [] →
      ((runCleanup cutoff db dirs).1.runs =
        db.runs.filter (fun r => !(decide (r.createdAt < cutoff)))) ∧
      ((runCleanup cutoff db dirs).1.runTests =
        db.runTests.filter (fun t => !((getOldRunIds cutoff db.runs).contains t.runId))) ∧
      ((runCleanup cutoff db dirs).1.tests = db.tests) ∧
      ((runCleanup cutoff db dirs).1.schedules = db.schedules) ∧
      (∀ d, d ∈ (runCleanup cutoff db dirs).2 ↔
        d ∈ dirs ∧ d ∉ getOldRunIds cutoff db.runs ∧
          (isUuidLike d = true →
            ∃ r ∈ (runCleanup cutoff db dirs).1.runs, r.id = d))) := by
  constructor
  · intro h
    unfold runCleanup
    rw [h]
    rfl
  · intro h
    have hlen : ¬ ((getOldRunIds cutoff db.runs).length = 0) := by
      intro hc
      exact h (List.length_eq_zero.mp hc)
    have hstep : runCleanup cutoff db dirs =
        ({ db with
            runs := db.runs.filter (fun r => !(decide (r.createdAt < cutoff))),
            runTests := db.runTests.filter
              (fun t => !((getOldRunIds cutoff db.runs).contains t.runId)) },
         cleanupOrphanedArtifacts
           (db.runs.filter (fun r => !(decide (r.createdAt < cutoff))))
           (dirs.filter (fun d => !((getOldRunIds cutoff db.runs).contains d)))) := by
      unfold runCleanup
      rw [if_neg hlen]
    refine ⟨by rw [hstep], by rw [hstep], by rw [hstep], by rw [hstep], ?_⟩
    intro d
    rw [hstep]
    show d ∈ cleanupOrphanedArtifacts _ _ ↔ _
    unfold cleanupOrphanedArtifacts
    rw [List.mem_filter, List.mem_filter]
    constructor
    · rintro ⟨⟨hdin, hnotold⟩, hkeep⟩
      refine ⟨hdin, ?_, ?_⟩
      · intro hc
        rw [List.contains_eq_any_beq] at hnotold
        have hany : (getOldRunIds cutoff db.runs).any (fun x => d == x) = true :=
          List.any_eq_true.mpr ⟨d, hc, by simp⟩
        rw [hany] at hnotold
        exact Bool.false_ne_true (by simpa using hnotold)
      · intro huuid
        rw [huuid] at hkeep
        simp only [Bool.not_true, Bool.false_or] at hkeep
        rcases List.any_eq_true.mp hkeep with ⟨r, hrmem, hrid⟩
        exact ⟨r, hrmem, by simpa using hrid⟩
    · rintro ⟨hdin, hnotold, himp⟩
      refine ⟨⟨hdin, ?_⟩, ?_⟩
      · rw [List.contains_eq_any_beq]
        simp only [Bool.not_eq_true']
        rw [← Bool.not_eq_true]
        intro hc
        rcases List.any_eq_true.mp hc with ⟨x, hx, hxd⟩
        have hdx : d = x := by simpa using hxd
        subst hdx
        exact hnotold hx
      · by_cases huuid : isUuidLike d = true
        · rcases himp huuid with ⟨r, hrmem, hrid⟩
          have : (db.runs.filter (fun r => !(decide (r.createdAt < cutoff)))).any
              (fun r => r.id == d) = true :=
            List.any_eq_true.mpr ⟨r, hrmem, by simp [hrid]⟩
          rw [this]
          simp
        · have : isUuidLike d = false := by simpa using huuid
          rw [this]
          rfl

/-- A store holding one over-retention run and one recent run, for the
retention witness. -/
def dbRetention : DBState :=
  { runs := [ { id := "aaaaaaaa-0000-0000-0000-000000000000",
                status := RunStatus.passed, environment := "SIT1", createdAt := 1 },
              { id := "bbbbbbbb-0000-0000-0000-000000000000",
                status := RunStatus.passed, environment := "SIT1", createdAt := 50 } ],
    runTests := [ { id := "t1", runId := "aaaaaaaa-0000-0000-0000-000000000000",
                    testId := "d1", testKey := "k1", status := RunTestStatus.passed },
                  { id := "t2", runId := "bbbbbbbb-0000-0000-0000-000000000000",
                    testId := "d2", testKey := "k2", status := RunTestStatus.passed } ] }

theorem runCleanup_spec_witness :
    ("00000000-0000-0000-0000-000000000000" ∉
      (runCleanup 10 dbRetention
        [ "aaaaaaaa-0000-0000-0000-000000000000",
          "00000000-0000-0000-0000-000000000000",
          "not-a-uuid",
          "bbbbbbbb-0000-0000-0000-000000000000" ]).2) ∧
    ("aaaaaaaa-0000-0000-0000-000000000000" ∉
      (runCleanup 10 dbRetention
        [ "aaaaaaaa-0000-0000-0000-000000000000",
          "00000000-0000-0000-0000-000000000000",
          "not-a-uuid",
          "bbbbbbbb-0000-0000-0000-000000000000" ]).2) ∧
    ("not-a-uuid" ∈
      (runCleanup 10 dbRetention
        [ "aaaaaaaa-0000-0000-0000-000000000000",
          "00000000-0000-0000-0000-000000000000",
          "not-a-uuid",
          "bbbbbbbb-0000-0000-0000-000000000000" ]).2) ∧
    ("bbbbbbbb-0000-0000-0000-000000000000" ∈
      (runCleanup 10 dbRetention
        [ "aaaaaaaa-0000-0000-0000-000000000000",
          "00000000-0000-0000-0000-000000000000",
          "not-a-uuid",
          "bbbbbbbb-0000-0000-0000-000000000000" ]).2) := by
  have h := (runCleanup_spec 10 dbRetention
    [ "aaaaaaaa-0000-0000-0000-000000000000",
      "00000000-0000-0000-0000-000000000000",
      "not-a-uuid",
      "bbbbbbbb-0000-0000-0000-000000000000" ]).2 (by decide)
  refine ⟨fun hc => ?_, fun hc => ?_, ?_, ?_⟩
  · exact absurd ((h.2.2.2.2 _).mp hc) (by decide)
  · exact absurd ((h.2.2.2.2 _).mp hc) (by decide)
  · exact (h.2.2.2.2 _).mpr (by decide)
  · exact (h.2.2.2.2 _).mpr (by decide)

-- ============================================================================
-- C6: flakiness detection (db/models/runs.ts source: getFlakyTestsCount,
-- getFlakyTests)
-- ============================================================================

theorem countP_congr_of {α : Type} (l : List α) (p q : α → Bool)
    (h : ∀ a ∈ l, p a = q a) : l.countP p = l.countP q :=
  le_antisymm
    (List.countP_mono_left (fun a ha hp => (h a ha) ▸ hp))
    (List.countP_mono_left (fun a ha hq => (h a ha).symm ▸ hq))

/-- The run row joined to a run_test through `rt.run_id = r.id`;
`runs.id` is the primary key, so the SQL join is this lookup. -/
def runById (db : DBState) (rid : String) : Option Run :=
  db.runs.find? (fun r => r.id == rid)

/-- `r.finished_at >= date('now', '-N days')`: a NULL `finished_at`
compares as NULL and the row is excluded. -/
def inWindow (cutoff : Nat) (r : Run) : Bool :=
  match r.finishedAt with
  | some t => decide (cutoff ≤ t)
  | none => false

/-- The joined, filtered row set shared by both flakiness queries:
run_tests with `status IN ('passed','failed')` whose run finished within
the window. -/
def windowRows (cutoff : Nat) (db : DBState) : List RunTest :=
  db.runTests.filter (fun t =>
    ((runById db t.runId).map (inWindow cutoff)).getD false &&
    (t.status == RunTestStatus.passed || t.status == RunTestStatus.failed))

/-- `COUNT(*)` of a test key's window rows. -/
def keyTotal (cutoff : Nat) (db : DBState) (k : String) : Nat :=
  (windowRows cutoff db).countP (fun t => t.testKey == k)

/-- `SUM(status='passed')` of a test key's window rows. -/
def keyPassed (cutoff : Nat) (db : DBState) (k : String) : Nat :=
  (windowRows cutoff db).countP
    (fun t => t.testKey == k && t.status == RunTestStatus.passed)

/-- `SUM(status='failed')` of a test key's window rows. -/
def keyFailed (cutoff : Nat) (db : DBState) (k : String) : Nat :=
  (windowRows cutoff db).countP
    (fun t => t.testKey == k && t.status == RunTestStatus.failed)

/-- `failed_count * 100.0 / total_executions`, as an exact rational. -/
def failurePct (failed total : Nat) : ℚ := (failed * 100 : ℚ) / total

/-- The `HAVING` clause of both flakiness queries: at least `minE`
executions, at least one pass and one fail, and a failure rate `BETWEEN 10
AND 90` (both endpoints inclusive). -/
def flakyHaving (minE total passed failed : Nat) : Bool :=
  decide (minE ≤ total) && decide (0 < passed) && decide (0 < failed) &&
    decide (10 ≤ failurePct failed total) && decide (failurePct failed total ≤ 90)

/-- The test keys reported by `getFlakyTestsCount` (the `GROUP BY
rt.test_key ... HAVING` rows). -/
def flakyKeys (cutoff minE : Nat) (db : DBState) : List String :=
  ((windowRows cutoff db).map (fun t => t.testKey)).dedup.filter
    (fun k => flakyHaving minE (keyTotal cutoff db k) (keyPassed cutoff db k)
      (keyFailed cutoff db k))

/-- The keys counted as critical by `getFlakyTestsCount`:
`(failed_count * 100.0 / total_executions) >= 30` on the unrounded rate. -/
def criticalKeys (cutoff minE : Nat) (db : DBState) : List String :=
  (flakyKeys cutoff minE db).filter
    (fun k => decide (30 ≤ failurePct (keyFailed cutoff db k) (keyTotal cutoff db k)))

/-- `getFlakyTestsCount(days, minExecutions)`: total and critical counts. -/
def getFlakyTestsCount (cutoff minE : Nat) (db : DBState) : Nat × Nat :=
  ((flakyKeys cutoff minE db).length, (criticalKeys cutoff minE db).length)

/-- Per-(test_key, test_id) counters of `getFlakyTests`, which groups by
both columns. -/
def pairTotal (cutoff : Nat) (db : DBState) (k tid : String) : Nat :=
  (windowRows cutoff db).countP (fun t => t.testKey == k && t.testId == tid)

def pairPassed (cutoff : Nat) (db : DBState) (k tid : String) : Nat :=
  (windowRows cutoff db).countP
    (fun t => t.testKey == k && t.testId == tid && t.status == RunTestStatus.passed)

def pairFailed (cutoff : Nat) (db : DBState) (k tid : String) : Nat :=
  (windowRows cutoff db).countP
    (fun t => t.testKey == k && t.testId == tid && t.status == RunTestStatus.failed)

/-- JavaScript `Math.round(x * 10) / 10` (ties round up, as for the
positive rates produced here). -/
def round1 (q : ℚ) : ℚ := (round (q * 10) : ℚ) / 10

/-- One row of `getFlakyTests`' main query (the secondary detail queries —
last ten results, failing environments, last failure — feed display fields
the claims do not touch and are not modelled). -/
structure FlakyTestEntry where
  testKey : String
  testId : String
  total : Nat
  passed : Nat
  failed : Nat
  flakinessScore : ℚ
deriving Repr

/-- `getFlakyTests(minExecutions, days)`: grouped by `(test_key, test_id)`
under the same `HAVING`, with the reported score rounded to one decimal.
(`ORDER BY flakiness_score DESC` does not affect membership and is left
unmodelled.) -/
def getFlakyTests (cutoff minE : Nat) (db : DBState) : List FlakyTestEntry :=
  (((windowRows cutoff db).map (fun t => (t.testKey, t.testId))).dedup.filter
      (fun p => flakyHaving minE (pairTotal cutoff db p.1 p.2)
        (pairPassed cutoff db p.1 p.2) (pairFailed cutoff db p.1 p.2))).map
    (fun p =>
      { testKey := p.1, testId := p.2,
        total := pairTotal cutoff db p.1 p.2,
        passed := pairPassed cutoff db p.1 p.2,
        failed := pairFailed cutoff db p.1 p.2,
        flakinessScore :=
          round1 (failurePct (pairFailed cutoff db p.1 p.2) (pairTotal cutoff db p.1 p.2)) })

/-- C6: a test key is reported flaky over a window iff, over its
passed/failed run_tests of runs finished within the window, the total is at
least `minExecutions`, both outcomes occur, and the failure percentage lies
in the inclusive band [10, 90]; the critical classification holds iff the
(unrounded) failure percentage is at least 30; and — given the catalog
invariant that a test key determines its test id — `getFlakyTests` reports
exactly the flaky keys, with the same counters and the failure percentage
(rounded to one decimal) as the flakiness score. -/
theorem flakiness_classification (cutoff minE : Nat) (db : DBState)
    (hcons : ∀ t1 ∈ windowRows cutoff db, ∀ t2 ∈ windowRows cutoff db,
      t1.testKey = t2.testKey → t1.testId = t2.testId) :
    (∀ k, k ∈ flakyKeys cutoff minE db ↔
      (minE ≤ keyTotal cutoff db k ∧ 0 < keyPassed cutoff db k ∧
       0 < keyFailed cutoff db k ∧
       10 ≤ failurePct (keyFailed cutoff db k) (keyTotal cutoff db k) ∧
       failurePct (keyFailed cutoff db k) (keyTotal cutoff db k) ≤ 90)) ∧
    (getFlakyTestsCount cutoff minE db =
      ((flakyKeys cutoff minE db).length, (criticalKeys cutoff minE db).length)) ∧
    (∀ k, k ∈ criticalKeys cutoff minE db ↔
      (k ∈ flakyKeys cutoff minE db ∧
       30 ≤ failurePct (keyFailed cutoff db k) (keyTotal cutoff db k))) ∧
    (∀ e ∈ getFlakyTests cutoff minE db,
      e.testKey ∈ flakyKeys cutoff minE db ∧
      e.total = keyTotal cutoff db e.testKey ∧
      e.passed = keyPassed cutoff db e.testKey ∧
      e.failed = keyFailed cutoff db e.testKey ∧
      e.flakinessScore =
        round1 (failurePct (keyFailed cutoff db e.testKey) (keyTotal cutoff db e.testKey))) ∧
    (∀ k ∈ flakyKeys cutoff minE db, ∃ e ∈ getFlakyTests cutoff minE db, e.testKey = k) := by
  have hhav : ∀ a b c : Nat, flakyHaving minE a b c = true ↔
      (minE ≤ a ∧ 0 < b ∧ 0 < c ∧ 10 ≤ failurePct c a ∧ failurePct c a ≤ 90) := by
    intro a b c
    simp [flakyHaving, and_assoc]
  have hpair : ∀ t0 ∈ windowRows cutoff db,
      pairTotal cutoff db t0.testKey t0.testId = keyTotal cutoff db t0.testKey ∧
      pairPassed cutoff db t0.testKey t0.testId = keyPassed cutoff db t0.testKey ∧
      pairFailed cutoff db t0.testKey t0.testId = keyFailed cutoff db t0.testKey := by
    intro t0 ht0
    refine ⟨countP_congr_of _ _ _ ?_, countP_congr_of _ _ _ ?_, countP_congr_of _ _ _ ?_⟩
    all_goals
      intro t ht
      by_cases hk : t.testKey = t0.testKey
      · have hid : t.testId = t0.testId := hcons t ht t0 ht0 hk
        have hkb : (t.testKey == t0.testKey) = true := by simp [hk]
        have hib : (t.testId == t0.testId) = true := by simp [hid]
        simp only [hkb, hib, Bool.true_and]
      · have hkb : (t.testKey == t0.testKey) = false := by simp [hk]
        simp only [hkb, Bool.false_and]
  have hkeymem : ∀ k, (∃ t ∈ windowRows cutoff db, t.testKey = k) →
      k ∈ ((windowRows cutoff db).map (fun t => t.testKey)).dedup := by
    rintro k ⟨t, ht, hkt⟩
    rw [List.mem_dedup, List.mem_map]
    exact ⟨t, ht, hkt⟩
  refine ⟨?_, rfl, ?_, ?_, ?_⟩
  · intro k
    constructor
    · intro hk
      rcases List.mem_filter.mp hk with ⟨_, hcondb⟩
      exact (hhav _ _ _).mp hcondb
    · intro hc
      apply List.mem_filter.mpr
      refine ⟨?_, (hhav _ _ _).mpr hc⟩
      rcases List.countP_pos_iff.mp hc.2.1 with ⟨t, ht, hpt⟩
      apply hkeymem
      exact ⟨t, ht, by simpa using (Bool.and_eq_true_iff.mp hpt).1⟩
  · intro k
    constructor
    · intro hk
      rcases List.mem_filter.mp hk with ⟨hmem, hcrit⟩
      exact ⟨hmem, by simpa using hcrit⟩
    · rintro ⟨hmem, hcrit⟩
      exact List.mem_filter.mpr ⟨hmem, by simpa using hcrit⟩
  · intro e he
    rcases List.mem_map.mp he with ⟨p, hp, hpe⟩
    rcases List.mem_filter.mp hp with ⟨hpdedup, hphav⟩
    rcases List.mem_map.mp (List.mem_dedup.mp hpdedup) with ⟨t0, ht0, hpt0⟩
    have hps : p.1 = t0.testKey ∧ p.2 = t0.testId := by
      constructor <;> rw [← hpt0]
    rcases hpair t0 ht0 with ⟨hp1, hp2, hp3⟩
    have hkey : e.testKey = p.1 := by rw [← hpe]
    have htot : pairTotal cutoff db p.1 p.2 = keyTotal cutoff db p.1 := by
      rw [hps.1, hps.2, hp1]
    have hpass : pairPassed cutoff db p.1 p.2 = keyPassed cutoff db p.1 := by
      rw [hps.1, hps.2, hp2]
    have hfail : pairFailed cutoff db p.1 p.2 = keyFailed cutoff db p.1 := by
      rw [hps.1, hps.2, hp3]
    refine ⟨?_, ?_, ?_, ?_, ?_⟩
    · rw [hkey]
      apply List.mem_filter.mpr
      refine ⟨hkeymem _ ⟨t0, ht0, hps.1.symm⟩, ?_⟩
      rw [← htot, ← hpass, ← hfail]
      exact hphav
    · rw [hkey, ← hpe, ← htot]
    · rw [hkey, ← hpe, ← hpass]
    · rw [hkey, ← hpe, ← hfail]
    · rw [hkey, ← hpe, ← htot, ← hfail]
  · intro k hk
    rcases List.mem_filter.mp hk with ⟨_, hcondb⟩
    have hc := (hhav _ _ _).mp hcondb
    rcases List.countP_pos_iff.mp hc.2.1 with ⟨t0, ht0, hpt0⟩
    have hkt0 : t0.testKey = k := by
      simpa using (Bool.and_eq_true_iff.mp hpt0).1
    rcases hpair t0 ht0 with ⟨hp1, hp2, hp3⟩
    have hpmem : (k, t0.testId) ∈
        ((windowRows cutoff db).map (fun t => (t.testKey, t.testId))).dedup := by
      rw [List.mem_dedup, List.mem_map]
      exact ⟨t0, ht0, by rw [hkt0]⟩
    have hpfil : (k, t0.testId) ∈
        (((windowRows cutoff db).map (fun t => (t.testKey, t.testId))).dedup.filter
          (fun p => flakyHaving minE (pairTotal cutoff db p.1 p.2)
            (pairPassed cutoff db p.1 p.2) (pairFailed cutoff db p.1 p.2))) := by
      apply List.mem_filter.mpr
      refine ⟨hpmem, ?_⟩
      show flakyHaving minE (pairTotal cutoff db k t0.testId)
        (pairPassed cutoff db k t0.testId) (pairFailed cutoff db k t0.testId) = true
      rw [← hkt0, hp1, hp2, hp3, hkt0]
      exact hcondb
    refine ⟨_, List.mem_map.mpr ⟨(k, t0.testId), hpfil, rfl⟩, rfl⟩

instance (l : List RunTest) (t1 : RunTest) :
    Decidable (∀ t2 ∈ l, t1.testKey = t2.testKey → t1.testId = t2.testId) :=
  List.decidableBAll _ l

instance (l l' : List RunTest) :
    Decidable (∀ t1 ∈ l, ∀ t2 ∈ l', t1.testKey = t2.testKey → t1.testId = t2.testId) :=
  List.decidableBAll _ l

/-- Twelve finished executions of test key t1 — eight passed, four failed —
matching the spec's flaky-detection scenario. -/
def flakyDb : DBState :=
  { runs := (List.range 12).map (fun i =>
      { id := "r" ++ toString i, status := RunStatus.passed, environment := "SIT1",
        finishedAt := some 20, createdAt := 0 }),
    runTests := (List.range 12).map (fun i =>
      { id := "x" ++ toString i, runId := "r" ++ toString i, testId := "d1",
        testKey := "t1",
        status := if i < 8 then RunTestStatus.passed else RunTestStatus.failed }) }

theorem flakiness_classification_witness :
    "t1" ∈ flakyKeys 10 5 flakyDb ∧ "t1" ∈ criticalKeys 10 5 flakyDb := by
  have h := flakiness_classification 10 5 flakyDb (by decide)
  have ht : keyTotal 10 flakyDb "t1" = 12 := by decide
  have hp : keyPassed 10 flakyDb "t1" = 8 := by decide
  have hf : keyFailed 10 flakyDb "t1" = 4 := by decide
  have hflaky : "t1" ∈ flakyKeys 10 5 flakyDb := by
    apply (h.1 "t1").mpr
    rw [ht, hp, hf]
    refine ⟨by norm_num, by norm_num, by norm_num, ?_, ?_⟩ <;> norm_num [failurePct]
  refine ⟨hflaky, (h.2.2.1 "t1").mpr ⟨hflaky, ?_⟩⟩
  rw [hf, ht]
  norm_num [failurePct]

-- ============================================================================
-- C5: scheduler overlap suppression (core scheduler source: triggerSchedule;
-- queue source: processQueue; db/models: runs.ts, schedules.ts, tests.ts)
-- ============================================================================

/-- `getTestsByFolder(folderPrefix)`: active tests whose `folder_path`
matches `LIKE 'prefix%'`. -/
def getTestsByFolder (pre : String) (tests : List TestDefinition) : List TestDefinition :=
  tests.filter (fun t => t.active && pre.isPrefixOf t.folderPath)

/-- `getTestsByTags(tags)`: active tests having any of the given tags. -/
def getTestsByTags (tags : List String) (tests : List TestDefinition) : List TestDefinition :=
  tests.filter (fun t => t.active && tags.any (fun tag => t.meta.tags.contains tag))

/-- `getTestsByKeys(testKeys)`: active tests among the given keys; an empty
key list short-circuits to the empty list. -/
def getTestsByKeys (testKeys : List String) (tests : List TestDefinition) :
    List TestDefinition :=
  if testKeys.isEmpty then []
  else tests.filter (fun t => t.active && testKeys.contains t.testKey)

/-- `getTestsForSelector(selector)`: dispatch on the tagged variant. -/
def getTestsForSelector (sel : ScheduleSelector) (tests : List TestDefinition) :
    List TestDefinition :=
  match sel with
  | ScheduleSelector.folder p => getTestsByFolder p tests
  | ScheduleSelector.tags ts => getTestsByTags ts tests
  | ScheduleSelector.explicit ks => getTestsByKeys ks tests

/-- `createRun(data)`: one transaction inserting the queued run row and one
pending run_test row per `(testId, testKey)` pair. The freshly minted
uuids are modelled by the supplied `runId` and ids derived from it. -/
def createRun (now : Nat) (runId : String) (trigger environment : String)
    (scheduleId : Option String) (triggeredByEmail : Option String)
    (runOverrides : Option ObjMap) (testIds : List (String × String))
    (db : DBState) : DBState :=
  { db with
    runs := db.runs ++
      [{ id := runId, status := RunStatus.queued, triggerType := trigger,
         environment := environment, scheduleId := scheduleId,
         triggeredByEmail := triggeredByEmail, runOverrides := runOverrides,
         createdAt := now }],
    runTests := db.runTests ++ testIds.enum.map (fun p =>
      { id := runId ++ "/rt" ++ toString p.1, runId := runId, testId := p.2.1,
        testKey := p.2.2, status := RunTestStatus.pending }) }

/-- The overlap predicate: a run of this schedule in
`('queued','running')`. -/
def isActiveForSchedule (sid : String) (r : Run) : Bool :=
  r.scheduleId == some sid &&
    (r.status == RunStatus.queued || r.status == RunStatus.running)

/-- `getActiveRunsForSchedule(scheduleId)`: the SQL
`SELECT * FROM runs WHERE schedule_id = ? AND status IN ('queued','running')`. -/
def getActiveRunsForSchedule (sid : String) (runs : List Run) : List Run :=
  runs.filter (isActiveForSchedule sid)

/-- `updateScheduleLastTriggered(id)`. -/
def updateScheduleLastTriggered (now : Nat) (sid : String)
    (schedules : List Schedule) : List Schedule :=
  schedules.map (fun s => if s.id == sid then { s with lastTriggeredAt := some now } else s)

/-- `triggerSchedule(schedule)`: skip while a run of this schedule is
queued or running (not advancing `lastTriggeredAt`); otherwise resolve the
selector, create a run with the matched tests (or an empty audit run) and
stamp `lastTriggeredAt`. -/
def triggerSchedule (now : Nat) (runId : String) (s : Schedule) (db : DBState) : DBState :=
  let activeRuns := getActiveRunsForSchedule s.id db.runs
  if 0 < activeRuns.length then db
  else
    let tests := getTestsForSelector s.selector db.tests
    if tests.length = 0 then
      let db1 := createRun now runId "schedule" s.environment (some s.id)
        s.createdByEmail s.defaultRunOverrides [] db
      { db1 with schedules := updateScheduleLastTriggered now s.id db1.schedules }
    else
      let db1 := createRun now runId "schedule" s.environment (some s.id)
        s.createdByEmail s.defaultRunOverrides (tests.map (fun t => (t.id, t.testKey))) db
      { db1 with schedules := updateScheduleLastTriggered now s.id db1.schedules }

/-- `getNextQueuedRun()`: the oldest queued run
(`ORDER BY created_at ASC LIMIT 1`). -/
def getNextQueuedRun (runs : List Run) : Option Run :=
  (runs.filter (fun r => r.status == RunStatus.queued)).foldl
    (fun acc r =>
      match acc with
      | none => some r
      | some b => if r.createdAt < b.createdAt then some r else acc) none

/-- `updateRunStatus(id, status)` (db/models/runs.ts): `running` stamps
`started_at`; a terminal status stamps `finished_at`; anything else writes
the status alone. -/
def updateRunStatus (now : Nat) (id : String) (status : RunStatus)
    (runs : List Run) : List Run :=
  if status == RunStatus.running then
    runs.map (fun r =>
      if r.id == id then { r with status := status, startedAt := some now } else r)
  else if status == RunStatus.passed || status == RunStatus.failed ||
      status == RunStatus.skipped || status == RunStatus.cancelled then
    runs.map (fun r =>
      if r.id == id then { r with status := status, finishedAt := some now } else r)
  else
    runs.map (fun r => if r.id == id then { r with status := status } else r)

/-- The state-changing operations the running system performs on the runs
store after startup recovery. Creation events carry the uuid the operation
would mint; uuidv4 collisions are not modelled, so a creation whose id
already exists is a no-op. -/
inductive Event where
  | tick (sid : String) (now : Nat) (runId : String)
  | dispatch (now : Nat)
  | finishRun (now : Nat) (rid : String) (failedRun : Bool)
  | cancelReq (now : Nat) (rid : String)
  | skipPend (rid : String)
  | manualCreate (now : Nat) (runId : String) (env : String) (email : String)
      (ov : Option ObjMap) (testIds : List (String × String))

/-- One step of the system: a scheduler tick reaching an enabled schedule
(cron due-ness only gates whether `triggerSchedule` is called at all), the
queue dispatching the oldest queued run into execution, the executor
finishing a run, an HTTP cancel, the executor skipping pending tests, or a
manual run creation. -/
def applyEvent (db : DBState) (e : Event) : DBState :=
  match e with
  | Event.tick sid now runId =>
    if db.runs.any (fun r => r.id == runId) then db
    else
      match db.schedules.find? (fun s => s.id == sid && s.enabled) with
      | some s => triggerSchedule now runId s db
      | none => db
  | Event.dispatch now =>
    match getNextQueuedRun db.runs with
    | some r => { db with runs := updateRunStatus now r.id RunStatus.running db.runs }
    | none => db
  | Event.finishRun now rid failedRun =>
    let st := if failedRun then RunStatus.failed else RunStatus.passed
    { db with runs := updateRunStatus now rid st db.runs }
  | Event.cancelReq now rid => { db with runs := (cancelRun now rid db.runs).1 }
  | Event.skipPend rid => { db with runTests := (skipPendingTests rid db.runTests).1 }
  | Event.manualCreate now runId env email ov testIds =>
    if db.runs.any (fun r => r.id == runId) then db
    else createRun now runId "manual" env none (some email) ov testIds db

/-- Replay a sequence of events. -/
def applyEvents (evs : List Event) (db : DBState) : DBState :=
  evs.foldl applyEvent db

/-- No schedule has two of its runs simultaneously queued or running. -/
def ScheduleOverlapFree (db : DBState) : Prop :=
  ∀ sid, db.runs.countP (isActiveForSchedule sid) ≤ 1

theorem countP_map_le_of {α : Type} (l : List α) (f : α → α) (p : α → Bool)
    (h : ∀ x ∈ l, p (f x) = true → p x = true) :
    (l.map f).countP p ≤ l.countP p := by
  rw [List.countP_map]
  exact List.countP_mono_left h

theorem ids_preserved_map (l : List Run) (f : Run → Run)
    (hf : ∀ x, (f x).id = x.id) : (l.map f).map Run.id = l.map Run.id := by
  rw [List.map_map]
  exact List.map_eq_map_iff.mpr (fun x _ => hf x)

theorem getNextQueuedRun_mem (runs : List Run) (r : Run)
    (h : getNextQueuedRun runs = some r) :
    r ∈ runs ∧ (r.status == RunStatus.queued) = true := by
  have key : ∀ (l : List Run) (acc : Option Run),
      l.foldl (fun acc r =>
        match acc with
        | none => some r
        | some b => if r.createdAt < b.createdAt then some r else acc) acc = some r →
      r ∈ l ∨ acc = some r := by
    intro l
    induction l with
    | nil => intro acc h'; exact Or.inr h'
    | cons x xs ih =>
      intro acc h'
      rcases ih _ h' with h'' | h''
      · exact Or.inl (List.mem_cons.mpr (Or.inr h''))
      · cases acc with
        | none =>
          have hx : x = r := by simpa using h''
          exact Or.inl (hx ▸ List.mem_cons_self x xs)
        | some b =>
          have h3 : (if x.createdAt < b.createdAt then some x else some b) = some r := h''
          by_cases hc : x.createdAt < b.createdAt
          · rw [if_pos hc] at h3
            have hx : x = r := by simpa using h3
            exact Or.inl (hx ▸ List.mem_cons_self x xs)
          · rw [if_neg hc] at h3
            exact Or.inr h3
  unfold getNextQueuedRun at h
  rcases key _ _ h with h' | h'
  · exact List.mem_filter.mp h'
  · simp at h'

/-- After startup recovery, no run is queued or running. -/
theorem cleanupOrphanedRuns_no_active (now : Nat) (db : DBState) :
    ∀ r ∈ (cleanupOrphanedRuns now db).runs, isOrphanedRun r = false := by
  intro r hr
  rw [cleanupOrphanedRuns_eq] at hr
  have hr' : r ∈ (db.runs.filter isOrphanedRun).foldl
      (fun acc o => failRunById now o.id acc) db.runs := hr
  rw [foldl_failRunById] at hr'
  rcases List.mem_map.mp hr' with ⟨x, hx, hxr⟩
  by_cases hc : ((db.runs.filter isOrphanedRun).any fun o => x.id == o.id) = true
  · rw [if_pos hc] at hxr
    subst hxr
    rfl
  · rw [if_neg hc] at hxr
    subst hxr
    rcases ho : isOrphanedRun x with _ | _
    · rfl
    · exact absurd (List.any_eq_true.mpr
        ⟨x, List.mem_filter.mpr ⟨hx, ho⟩, by simp⟩) hc

theorem cleanup_ids (now : Nat) (db : DBState) :
    (cleanupOrphanedRuns now db).runs.map Run.id = db.runs.map Run.id := by
  rw [cleanupOrphanedRuns_eq]
  show ((db.runs.filter isOrphanedRun).foldl
    (fun acc o => failRunById now o.id acc) db.runs).map Run.id = _
  rw [foldl_failRunById]
  apply ids_preserved_map
  intro x
  dsimp only
  split <;> rfl

theorem cleanup_overlap_free (now : Nat) (db : DBState) :
    ScheduleOverlapFree (cleanupOrphanedRuns now db) := by
  intro sid
  have hz : (cleanupOrphanedRuns now db).runs.countP (isActiveForSchedule sid) = 0 := by
    rw [List.countP_eq_zero]
    intro r hr hp
    have hno := cleanupOrphanedRuns_no_active now db r hr
    rw [isOrphanedRun] at hno
    rcases Bool.or_eq_false_iff.mp hno with ⟨h1, h2⟩
    simp only [isActiveForSchedule, Bool.and_eq_true, Bool.or_eq_true] at hp
    rcases hp.2 with hq | hq
    · rw [h2] at hq
      exact Bool.false_ne_true hq
    · rw [h1] at hq
      exact Bool.false_ne_true hq
  omega

theorem applyEvent_preserves (db : DBState) (e : Event)
    (hnd : (db.runs.map Run.id).Nodup) (hof : ScheduleOverlapFree db) :
    ((applyEvent db e).runs.map Run.id).Nodup ∧ ScheduleOverlapFree (applyEvent db e) := by
  have happend : ∀ (newRun : Run),
      newRun.id ∉ db.runs.map Run.id →
      (((db.runs ++ [newRun]).map Run.id).Nodup ∧
        ∀ sid, isActiveForSchedule sid newRun = false →
          (db.runs ++ [newRun]).countP (isActiveForSchedule sid) ≤ 1) := by
    intro newRun hfresh
    constructor
    · rw [List.map_append]
      rw [List.nodup_append]
      refine ⟨hnd, List.nodup_singleton _, ?_⟩
      intro a ha hb
      have : a = newRun.id := by simpa using hb
      subst this
      exact hfresh ha
    · intro sid hinact
      rw [List.countP_append]
      have : List.countP (isActiveForSchedule sid) [newRun] = 0 := by
        simp [List.countP_cons, hinact]
      rw [this]
      simpa using hof sid
  cases e with
  | tick sid' now runId =>
    simp only [applyEvent]
    by_cases hfresh : db.runs.any (fun r => r.id == runId) = true
    · rw [if_pos hfresh]
      exact ⟨hnd, hof⟩
    · rw [if_neg hfresh]
      have hnotin : runId ∉ db.runs.map Run.id := by
        intro hc
        rcases List.mem_map.mp hc with ⟨r, hr, hrid⟩
        exact hfresh (List.any_eq_true.mpr ⟨r, hr, by simp [hrid]⟩)
      cases hfind : db.schedules.find? (fun s => s.id == sid' && s.enabled) with
      | none => exact ⟨hnd, hof⟩
      | some s =>
        change ((triggerSchedule now runId s db).runs.map Run.id).Nodup ∧
          ScheduleOverlapFree (triggerSchedule now runId s db)
        by_cases hact : 0 < (getActiveRunsForSchedule s.id db.runs).length
        · have hskip : triggerSchedule now runId s db = db := by
            simp only [triggerSchedule]
            rw [if_pos hact]
          rw [hskip]
          exact ⟨hnd, hof⟩
        · have hruns : (triggerSchedule now runId s db).runs = db.runs ++
              [{ id := runId, status := RunStatus.queued, triggerType := "schedule",
                 environment := s.environment, scheduleId := some s.id,
                 triggeredByEmail := s.createdByEmail,
                 runOverrides := s.defaultRunOverrides, createdAt := now }] := by
            simp only [triggerSchedule]
            rw [if_neg hact]
            by_cases hlen : (getTestsForSelector s.selector db.tests).length = 0
            · rw [if_pos hlen]
              rfl
            · rw [if_neg hlen]
              rfl
          have hap := happend
            { id := runId, status := RunStatus.queued, triggerType := "schedule",
                 environment := s.environment, scheduleId := some s.id,
                 triggeredByEmail := s.createdByEmail,
                 runOverrides := s.defaultRunOverrides, createdAt := now } hnotin
          constructor
          · rw [hruns]
            exact hap.1
          · intro sid
            show (triggerSchedule now runId s db).runs.countP _ ≤ 1
            rw [hruns]
            by_cases hsid : sid = s.id
            · subst hsid
              rw [List.countP_append]
              have h0 : db.runs.countP (isActiveForSchedule s.id) = 0 := by
                rw [List.countP_eq_length_filter]
                have hact2 : (db.runs.filter (isActiveForSchedule s.id)).length =
                    (getActiveRunsForSchedule s.id db.runs).length := rfl
                omega
              rw [h0]
              have h1 : ∀ (x : Run), List.countP (isActiveForSchedule s.id) [x] ≤ 1 :=
                fun x => le_trans (List.countP_le_length _) (by simp)
              simpa using h1 _
            · apply hap.2 sid
              simp only [isActiveForSchedule]
              have : ((some s.id == some sid) : Bool) = false := by
                simp
                exact fun hc => hsid hc.symm
              rw [this]
              rfl
  | dispatch now =>
    simp only [applyEvent]
    cases hn : getNextQueuedRun db.runs with
    | none => exact ⟨hnd, hof⟩
    | some r =>
      have hmem := getNextQueuedRun_mem db.runs r hn
      have hdef : updateRunStatus now r.id RunStatus.running db.runs =
          db.runs.map (fun x =>
            if x.id == r.id
            then { x with status := RunStatus.running, startedAt := some now }
            else x) := rfl
      constructor
      · show ((updateRunStatus now r.id RunStatus.running db.runs).map Run.id).Nodup
        rw [hdef, ids_preserved_map _ _ (fun x => by split <;> rfl)]
        exact hnd
      · intro sid
        show (updateRunStatus now r.id RunStatus.running db.runs).countP _ ≤ 1
        rw [hdef]
        refine le_trans (countP_map_le_of _ _ _ ?_) (hof sid)
        intro x hx hpfx
        by_cases hxid : (x.id == r.id) = true
        · have hxr : x = r := List.inj_on_of_nodup_map hnd hx hmem.1 (by simpa using hxid)
          rw [if_pos hxid] at hpfx
          simp only [isActiveForSchedule, Bool.and_eq_true] at hpfx ⊢
          refine ⟨hpfx.1, ?_⟩
          have hq : x.status = RunStatus.queued := by
            rw [hxr]
            simpa using hmem.2
          rw [hq]
          rfl
        · rw [if_neg hxid] at hpfx
          exact hpfx
  | finishRun now rid failedRun =>
    simp only [applyEvent]
    cases failedRun with
    | true =>
      change ((updateRunStatus now rid RunStatus.failed db.runs).map Run.id).Nodup ∧
        ScheduleOverlapFree
          { db with runs := updateRunStatus now rid RunStatus.failed db.runs }
      have hdef : updateRunStatus now rid RunStatus.failed db.runs =
          db.runs.map (fun x =>
            if x.id == rid
            then { x with status := RunStatus.failed, finishedAt := some now }
            else x) := rfl
      constructor
      · show ((updateRunStatus now rid RunStatus.failed db.runs).map Run.id).Nodup
        rw [hdef, ids_preserved_map _ _ (fun x => by split <;> rfl)]
        exact hnd
      · intro sid
        show (updateRunStatus now rid RunStatus.failed db.runs).countP (isActiveForSchedule sid) ≤ 1
        rw [hdef]
        refine le_trans (countP_map_le_of _ _ _ ?_) (hof sid)
        intro x hx hpfx
        by_cases hxid : (x.id == rid) = true
        · rw [if_pos hxid] at hpfx
          simp [isActiveForSchedule] at hpfx
        · rw [if_neg hxid] at hpfx
          exact hpfx
    | false =>
      change ((updateRunStatus now rid RunStatus.passed db.runs).map Run.id).Nodup ∧
        ScheduleOverlapFree
          { db with runs := updateRunStatus now rid RunStatus.passed db.runs }
      have hdef : updateRunStatus now rid RunStatus.passed db.runs =
          db.runs.map (fun x =>
            if x.id == rid
            then { x with status := RunStatus.passed, finishedAt := some now }
            else x) := rfl
      constructor
      · show ((updateRunStatus now rid RunStatus.passed db.runs).map Run.id).Nodup
        rw [hdef, ids_preserved_map _ _ (fun x => by split <;> rfl)]
        exact hnd
      · intro sid
        show (updateRunStatus now rid RunStatus.passed db.runs).countP (isActiveForSchedule sid) ≤ 1
        rw [hdef]
        refine le_trans (countP_map_le_of _ _ _ ?_) (hof sid)
        intro x hx hpfx
        by_cases hxid : (x.id == rid) = true
        · rw [if_pos hxid] at hpfx
          simp [isActiveForSchedule] at hpfx
        · rw [if_neg hxid] at hpfx
          exact hpfx
  | cancelReq now rid =>
    simp only [applyEvent]
    have hdef : (cancelRun now rid db.runs).1 =
        db.runs.map (fun x =>
          if x.id == rid && cancellable x
          then { x with status := RunStatus.cancelled, finishedAt := some now }
          else x) := rfl
    constructor
    · show (((cancelRun now rid db.runs).1).map Run.id).Nodup
      rw [hdef, ids_preserved_map _ _ (fun x => by split <;> rfl)]
      exact hnd
    · intro sid
      show ((cancelRun now rid db.runs).1).countP _ ≤ 1
      rw [hdef]
      refine le_trans (countP_map_le_of _ _ _ ?_) (hof sid)
      intro x hx hpfx
      by_cases hxc : (x.id == rid && cancellable x) = true
      · rw [if_pos hxc] at hpfx
        simp [isActiveForSchedule] at hpfx
      · rw [if_neg hxc] at hpfx
        exact hpfx
  | skipPend rid =>
    simp only [applyEvent]
    exact ⟨hnd, hof⟩
  | manualCreate now runId env email ov testIds =>
    simp only [applyEvent]
    by_cases hfresh : db.runs.any (fun r => r.id == runId) = true
    · rw [if_pos hfresh]
      exact ⟨hnd, hof⟩
    · rw [if_neg hfresh]
      have hnotin : runId ∉ db.runs.map Run.id := by
        intro hc
        rcases List.mem_map.mp hc with ⟨r, hr, hrid⟩
        exact hfresh (List.any_eq_true.mpr ⟨r, hr, by simp [hrid]⟩)
      have hap := happend
        { id := runId, status := RunStatus.queued, triggerType := "manual",
          environment := env, scheduleId := none, triggeredByEmail := some email,
          runOverrides := ov, createdAt := now } hnotin
      constructor
      · exact hap.1
      · intro sid
        apply hap.2 sid
        rfl

theorem applyEvents_preserves (evs : List Event) (db : DBState)
    (h : (db.runs.map Run.id).Nodup ∧ ScheduleOverlapFree db) :
    ((applyEvents evs db).runs.map Run.id).Nodup ∧
      ScheduleOverlapFree (applyEvents evs db) := by
  induction evs generalizing db with
  | nil => exact h
  | cons e evs ih => exact ih _ (applyEvent_preserves db e h.1 h.2)

/-- C5: a tick on a schedule with a queued or running run does nothing —
no run is created and `lastTriggeredAt` keeps its value — and consequently,
starting from any recovered startup state (with unique run ids, the
PRIMARY KEY), any interleaving of scheduler ticks, queue dispatches,
executor completions, cancellations, pending-skips and manual creations
never leaves a schedule with two of its runs simultaneously queued or
running. -/
theorem scheduler_overlap_suppression (db0 : DBState) (now0 : Nat) (evs : List Event)
    (hnd0 : (db0.runs.map Run.id).Nodup) :
    (∀ (s : Schedule) (db : DBState) (now : Nat) (runId : String),
      0 < (getActiveRunsForSchedule s.id db.runs).length →
      triggerSchedule now runId s db = db) ∧
    ScheduleOverlapFree (applyEvents evs (cleanupOrphanedRuns now0 db0)) := by
  constructor
  · intro s db now runId hact
    simp only [triggerSchedule]
    rw [if_pos hact]
  · refine (applyEvents_preserves evs _ ⟨?_, cleanup_overlap_free now0 db0⟩).2
    rw [cleanup_ids]
    exact hnd0

/-- A schedule with one still-queued run, for the overlap witness. -/
def schedNightly : Schedule :=
  { id := "s1", name := "nightly", cron := "0 0 * * *", enabled := true,
    environment := "SIT1", selector := ScheduleSelector.explicit ["k1"] }

/-- A store with that schedule and its queued run. -/
def dbSched : DBState :=
  { runs := [ { id := "ra", status := RunStatus.queued, environment := "SIT1",
                scheduleId := some "s1", createdAt := 3 } ],
    schedules := [schedNightly] }

theorem scheduler_overlap_suppression_witness :
    (triggerSchedule 30 "r-new" schedNightly dbSched = dbSched) ∧
    ScheduleOverlapFree (applyEvents
      [Event.tick "s1" 30 "r-new", Event.dispatch 31, Event.finishRun 40 "ra" false,
       Event.tick "s1" 60 "r-new2"]
      (cleanupOrphanedRuns 1 dbSched)) := by
  have h := scheduler_overlap_suppression dbSched 1
    [Event.tick "s1" 30 "r-new", Event.dispatch 31, Event.finishRun 40 "ra" false,
     Event.tick "s1" 60 "r-new2"] (by decide)
  exact ⟨h.1 schedNightly dbSched 30 "r-new" (by decide), h.2⟩

end MBSS
